import Mathlib

/-!
# agGrOgator: the feed acquisition scheduler and fetch pipeline

A shallow embedding of `src/main.go` (`fetchFeed`, `scrapeFeeds`, `handlerAgg`,
`handlerBrowse`).  Every call that leaves the program (the generated
`internal/database` queries, `net/http`, `encoding/xml`, `html`, `time`,
`strconv`, `uuid`) is a field of `World`, acting on an explicit world state;
the functions of `main.go` are written over an arbitrary `World` and return
the new state together with the trace of the calls and prints they made.
-/

namespace AgGrOgator

/-! ## Go values -/

/-- Go error values as `main.go` builds and receives them: `plain` is what
`errors.New` and `fmt.Errorf` without `%w` return, `wrapped` is what
`fmt.Errorf` with one `%w` returns (the text is the whole formatted message,
the cause is what `errors.Unwrap` gives back). -/
inductive GoError where
  | plain (msg : String)
  | wrapped (msg : String) (cause : GoError)
deriving DecidableEq, Repr

namespace GoError

/-- The `Error()` method. -/
def Error : GoError → String
  | plain m => m
  | wrapped m _ => m

/-- The function `errors.Unwrap`. -/
def Unwrap : GoError → Option GoError
  | plain _ => none
  | wrapped _ c => some c

end GoError

/-- The call `fmt.Errorf(text + "%w", err)`. -/
def errorfW (text : String) (err : GoError) : GoError :=
  .wrapped (text ++ err.Error) err

deriving instance DecidableEq for Except

/-- The type `uuid.UUID` (128 bits, kept as a number). -/
abbrev UUID := Nat

/-- The type `time.Time`: seconds and nanoseconds counted from the zero time
(January 1, year 1, 00:00:00 UTC). -/
structure Time where
  sec : Int := 0
  nsec : Nat := 0
deriving DecidableEq, Repr

/-- The zero value `time.Time{}`. -/
def Time.zero : Time := {}

/-- The type `sql.NullTime`; its zero value is invalid with the zero time. -/
structure NullTime where
  Time : Time := {}
  Valid : Bool := false
deriving DecidableEq, Repr

/-- The type `sql.NullString`. -/
structure NullString where
  String : String := ""
  Valid : Bool := false
deriving DecidableEq, Repr

/-- The function `int32(n)` on a Go `int`: the low 32 bits, read as signed. -/
def int32 (n : Int) : Int := (n + 2 ^ 31) % 2 ^ 32 - 2 ^ 31

/-! ## Data model -/

/-- The struct `RSSItem`. -/
structure RSSItem where
  Title : String := ""
  Link : String := ""
  Description : String := ""
  PubDate : String := ""
deriving DecidableEq, Repr

/-- The anonymous struct of `RSSFeed.Channel`. -/
structure RSSChannel where
  Title : String := ""
  Link : String := ""
  Description : String := ""
  Item : List RSSItem := []
deriving DecidableEq, Repr

/-- The struct `RSSFeed`. -/
structure RSSFeed where
  Channel : RSSChannel := {}
deriving DecidableEq, Repr

/-- The struct `command`. -/
structure command where
  name : String
  args : List String
deriving DecidableEq, Repr

/-- The row type `database.User` (declared in `internal/database`). -/
structure User where
  ID : UUID
  CreatedAt : Time := {}
  UpdatedAt : Time := {}
  Name : String
deriving DecidableEq, Repr

/-- The row type `database.Feed` (declared in `internal/database`). -/
structure Feed where
  ID : UUID
  CreatedAt : Time := {}
  UpdatedAt : Time := {}
  Name : String
  Url : String
  UserID : UUID
  LastFetchedAt : NullTime := {}
deriving DecidableEq, Repr

/-- The struct `database.CreatePostParams`, with the fields `scrapeFeeds` fills. -/
structure CreatePostParams where
  ID : UUID
  CreatedAt : Time
  UpdatedAt : Time
  FeedID : UUID
  Title : String
  Description : NullString
  Url : String
  PublishedAt : Time
deriving DecidableEq, Repr

/-- The row type `database.Post`, with the fields `handlerBrowse` prints. -/
structure Post where
  ID : UUID
  CreatedAt : Time
  UpdatedAt : Time
  Title : String
  Url : String
  Description : NullString
  PublishedAt : Time
  FeedID : UUID
deriving DecidableEq, Repr

/-- The struct `database.GetPostsForUserParams`; `Limit` is an `int32`. -/
structure GetPostsForUserParams where
  UserID : UUID
  Limit : Int
deriving DecidableEq, Repr

/-- The part of `http.Request` that `fetchFeed` touches. -/
structure Request where
  Method : String
  URL : String
  Header : List (String × String) := []
deriving DecidableEq, Repr

/-- The method `req.Header.Set(key, value)`. -/
def Request.setHeader (req : Request) (key value : String) : Request :=
  { req with Header := (key, value) :: req.Header.filter (fun kv => kv.1 != key) }

/-- The part of `http.Response` that `fetchFeed` reads: the status code and
what `io.ReadAll(resp.Body)` yields. -/
structure Response where
  StatusCode : Int
  Body : Except GoError String
deriving DecidableEq

/-! ## The world outside `main.go` -/

/-- Everything `main.go` calls and does not define, over a world state `σ`.
The store queries are the generated `internal/database` package; the rest is
the Go standard library and `github.com/google/uuid`. -/
structure World (σ : Type) where
  GetNextFeedToFetch : σ → Except GoError Feed × σ
  MarkFeedFetched : UUID → σ → Except GoError Feed × σ
  CreatePost : CreatePostParams → σ → Except GoError Post × σ
  GetPostsForUser : GetPostsForUserParams → σ → Except GoError (List Post) × σ
  uuidNew : σ → UUID × σ
  timeNow : σ → Time × σ
  NewRequestGet : String → Except GoError Request
  Do : Request → σ → Except GoError Response × σ
  xmlUnmarshal : String → Except GoError RSSFeed
  UnescapeString : String → String
  timeParseRFC1123Z : String → Except GoError Time
  ParseDuration : String → Except GoError Int
  Atoi : String → Except GoError Int
  uuidString : UUID → String
  timeString : Time → String

/-- What a run leaves behind: the calls made to the store and to `fetchFeed`
(with whether they succeeded), the lines printed, and the marks the
scheduling loop sets around a cycle and at a consumed tick. -/
inductive Event where
  | GetNextFeedToFetch (ok : Bool)
  | MarkFeedFetched (id : UUID) (ok : Bool)
  | fetchFeed (url : String) (ok : Bool)
  | CreatePost (arg : CreatePostParams) (ok : Bool)
  | GetPostsForUser (arg : GetPostsForUserParams) (ok : Bool)
  | Printf (text : String)
  | cycleBegin
  | cycleEnd
  | tick
deriving DecidableEq, Repr

/-! ## `fetchFeed` -/

/-- An assignment `feed.Channel.Item[i].f = v`, as an update of element `i`. -/
def assignItem (items : List RSSItem) (i : Nat) (f : RSSItem → RSSItem) : List RSSItem :=
  match items[i]? with
  | some x => items.set i (f x)
  | none => items

/-- The loop `for i, item := range feed.Channel.Item` of `fetchFeed`, from
index `i` on with `n` elements left: `item` is the element read at the start
of the iteration, and the four assignments write element `i` in place. -/
def unescapeLoop (unescape : String → String) : Nat → Nat → List RSSItem → List RSSItem
  | 0, _, items => items
  | n + 1, i, items =>
    match items[i]? with
    | none => items
    | some item =>
      let items1 := assignItem items i (fun x => { x with Title := unescape item.Title })
      let items2 := assignItem items1 i (fun x => { x with Description := unescape item.Description })
      let items3 := assignItem items2 i (fun x => { x with Link := unescape item.Link })
      let items4 := assignItem items3 i (fun x => { x with PubDate := unescape item.PubDate })
      unescapeLoop unescape n (i + 1) items4

/-- Lines 232-240 of `main.go`: the decoding of the parsed document. -/
def unescapeFeed (unescape : String → String) (feed : RSSFeed) : RSSFeed :=
  let c1 := { feed.Channel with Title := unescape feed.Channel.Title }
  let c2 := { c1 with Description := unescape c1.Description }
  let c3 := { c2 with Link := unescape c2.Link }
  { Channel := { c3 with Item := unescapeLoop unescape c3.Item.length 0 c3.Item } }

/-- The function `fetchFeed` (the context is `context.Background()` at its
only call and carries nothing). -/
def fetchFeed {σ : Type} (W : World σ) (feedURL : String) (s : σ) :
    Except GoError RSSFeed × σ :=
  match W.NewRequestGet feedURL with
  | .error err => (.error (errorfW "error creating request: " err), s)
  | .ok req0 =>
    let req := req0.setHeader "User-Agent" "agGrOgator"
    match W.Do req s with
    | (.error err, s1) => (.error (errorfW "error fetching feed: " err), s1)
    | (.ok resp, s1) =>
      if resp.StatusCode ≠ 200 then
        (.error (.plain ("error fetching feed: received status code " ++ toString resp.StatusCode)), s1)
      else
        match resp.Body with
        | .error err => (.error (errorfW "error reading response body: " err), s1)
        | .ok data =>
          match W.xmlUnmarshal data with
          | .error err => (.error (errorfW "error unmarshalling XML: " err), s1)
          | .ok feed => (.ok (unescapeFeed W.UnescapeString feed), s1)

/-! ## `scrapeFeeds` -/

/-- The value of `publishedAt` after lines 418-425. -/
def publishedAtOf {σ : Type} (W : World σ) (item : RSSItem) : NullTime :=
  match W.timeParseRFC1123Z item.PubDate with
  | .ok t => { Time := t, Valid := true }
  | .error _ => {}

/-- The loop `for _, item := range feed_data.Channel.Item` of `scrapeFeeds`. -/
def scrapeItems {σ : Type} (W : World σ) (feed : Feed) : List RSSItem → σ → σ × List Event
  | [], s => (s, [])
  | item :: rest, s =>
    let publishedAt := publishedAtOf W item
    let (id, s1) := W.uuidNew s
    let (created, s2) := W.timeNow s1
    let (updated, s3) := W.timeNow s2
    let arg : CreatePostParams :=
      { ID := id, CreatedAt := created, UpdatedAt := updated, FeedID := feed.ID,
        Title := item.Title,
        Description := { String := item.Description, Valid := true },
        Url := item.Link, PublishedAt := publishedAt.Time }
    match W.CreatePost arg s3 with
    | (.error err, s4) =>
      let (s5, evs) := scrapeItems W feed rest s4
      (s5, Event.CreatePost arg false
            :: Event.Printf ("Error creating post: " ++ err.Error ++ "\n") :: evs)
    | (.ok _, s4) =>
      let (s5, evs) := scrapeItems W feed rest s4
      (s5, Event.CreatePost arg true :: evs)

/-- The function `scrapeFeeds`: one fetch cycle. -/
def scrapeFeeds {σ : Type} (W : World σ) (s : σ) : σ × List Event :=
  match W.GetNextFeedToFetch s with
  | (.error err, s1) =>
    (s1, [Event.GetNextFeedToFetch false,
          Event.Printf ("Error retrieving next feed to fetch: " ++ err.Error ++ "\n")])
  | (.ok feed, s1) =>
    match W.MarkFeedFetched feed.ID s1 with
    | (.error err, s2) =>
      (s2, [Event.GetNextFeedToFetch true, Event.MarkFeedFetched feed.ID false,
            Event.Printf ("Error marking feed as fetched: " ++ err.Error ++ "\n")])
    | (.ok _, s2) =>
      match fetchFeed W feed.Url s2 with
      | (.error err, s3) =>
        (s3, [Event.GetNextFeedToFetch true, Event.MarkFeedFetched feed.ID true,
              Event.fetchFeed feed.Url false,
              Event.Printf ("Error fetching feed: " ++ err.Error ++ "\n")])
      | (.ok feed_data, s3) =>
        let (s4, evs) := scrapeItems W feed feed_data.Channel.Item s3
        (s4, [Event.GetNextFeedToFetch true, Event.MarkFeedFetched feed.ID true,
              Event.fetchFeed feed.Url true] ++ evs ++
             [Event.Printf ("Feed " ++ feed.Name ++ " processed successfully. Found "
                ++ toString feed_data.Channel.Item.length ++ " posts\n")])

/-! ## `handlerAgg` -/

/-- The call `time.NewTicker(d)`: it panics with this message unless `d` is
positive, and otherwise gives a ticker of period `d`. -/
def NewTicker (d : Int) : Except String Int :=
  if d ≤ 0 then .error "non-positive interval for NewTicker" else .ok d

/-- How a call of `handlerAgg` stands once the ticker has delivered a given
number of ticks: it has returned an error, it has panicked, or it is blocked
in `<-ticker.C` with the trace so far. -/
inductive AggResult (σ : Type) where
  | returned (err : GoError)
  | panicked (msg : String)
  | waiting (s : σ) (trace : List Event)

/-- The loop `for ; ; <-ticker.C { scrapeFeeds(s) }` run against a ticker that
delivers `n` ticks: the body, then the receive, then the body again. -/
def aggLoop {σ : Type} (W : World σ) : Nat → σ → σ × List Event
  | 0, s =>
    let (s1, evs) := scrapeFeeds W s
    (s1, Event.cycleBegin :: evs ++ [Event.cycleEnd])
  | n + 1, s =>
    let (s1, evs) := scrapeFeeds W s
    let (s2, more) := aggLoop W n s1
    (s2, Event.cycleBegin :: evs ++ [Event.cycleEnd, Event.tick] ++ more)

/-- The function `handlerAgg`, observed after `ticks` ticks of its ticker. -/
def handlerAgg {σ : Type} (W : World σ) (ticks : Nat) (s : σ) (cmd : command) : AggResult σ :=
  if cmd.args.length ≠ 1 then
    .returned (.plain "feed URL must be the only field and is required")
  else
    let arg0 := cmd.args.headD ""
    if arg0.utf8ByteSize = 0 then
      .returned (.plain "feed URL cannot be empty")
    else
      match W.ParseDuration arg0 with
      | .error err => .returned (errorfW "invalid time duration: " err)
      | .ok timeBetweenRequests =>
        match NewTicker timeBetweenRequests with
        | .error msg => .panicked msg
        | .ok _ =>
          let (s1, trace) := aggLoop W ticks s
          .waiting s1 trace

/-- The error `handlerAgg` returned, if it returned. -/
def AggResult.returnedError {σ : Type} : AggResult σ → Option GoError
  | .returned err => some err
  | _ => none

/-- The panic `handlerAgg` ended in, if it panicked. -/
def AggResult.panicValue {σ : Type} : AggResult σ → Option String
  | .panicked msg => some msg
  | _ => none

/-- Whether `handlerAgg` entered its loop (and is now blocked on the ticker). -/
def AggResult.inLoop {σ : Type} : AggResult σ → Bool
  | .waiting _ _ => true
  | _ => false

/-- The trace of `handlerAgg`: nothing is called or printed before the loop. -/
def AggResult.trace {σ : Type} : AggResult σ → List Event
  | .waiting _ trace => trace
  | _ => []

/-- The state after `k` fetch cycles run one after the other from `s`. -/
def stateAfterCycles {σ : Type} (W : World σ) (k : Nat) (s : σ) : σ :=
  Nat.iterate (fun t => (scrapeFeeds W t).1) k s

/-! ## `handlerBrowse` -/

/-- The loop `for _, post := range posts` of `handlerBrowse`. -/
def printPosts {σ : Type} (W : World σ) : List Post → List Event
  | [] => []
  | post :: rest =>
    Event.Printf ("Post ID: " ++ W.uuidString post.ID ++ " Published at: "
        ++ W.timeString post.PublishedAt ++ "\n")
      :: Event.Printf ("Title: " ++ post.Title ++ "\n")
      :: Event.Printf ("Description: " ++ post.Description.String ++ "\n")
      :: Event.Printf ("URL: " ++ post.Url ++ "\n")
      :: Event.Printf "-----------------------------\n"
      :: printPosts W rest

/-- Lines 450-457 of `main.go`: the limit, or the error returned for it. -/
def browseLimit {σ : Type} (W : World σ) (cmd : command) : Except GoError Int :=
  if cmd.args.length = 1 then
    let arg0 := cmd.args.headD ""
    match W.Atoi arg0 with
    | .ok new_limit => .ok new_limit
    | .error _ => .error (.plain ("invalid limit value: " ++ arg0))
  else .ok 2

/-- The function `handlerBrowse`: the returned error (`none` is `nil`), the
new state and the trace. -/
def handlerBrowse {σ : Type} (W : World σ) (s : σ) (cmd : command) (user : User) :
    Option GoError × σ × List Event :=
  match browseLimit W cmd with
  | .error err => (some err, s, [])
  | .ok limit =>
    let arg : GetPostsForUserParams := { UserID := user.ID, Limit := int32 limit }
    match W.GetPostsForUser arg s with
    | (.error err, s1) =>
      (some (errorfW "error retrieving posts for user: " err), s1,
        [Event.GetPostsForUser arg false])
    | (.ok posts, s1) =>
      if posts.length = 0 then
        (none, s1, [Event.GetPostsForUser arg true, Event.Printf "No posts found\n"])
      else
        (none, s1, Event.GetPostsForUser arg true :: printPosts W posts)

/-! ## Reading a trace -/

/-- The arguments of the `CreatePost` calls of a trace, in order. -/
def createPostCalls : List Event → List CreatePostParams
  | [] => []
  | Event.CreatePost arg _ :: rest => arg :: createPostCalls rest
  | _ :: rest => createPostCalls rest

/-- The `CreatePost` calls of a trace, in order, each with whether it
succeeded. -/
def createPostResults : List Event → List (CreatePostParams × Bool)
  | [] => []
  | Event.CreatePost arg ok :: rest => (arg, ok) :: createPostResults rest
  | _ :: rest => createPostResults rest

/-- The number of `CreatePost` calls of a trace that succeeded. -/
def newPosts : List Event → Nat
  | [] => 0
  | Event.CreatePost _ true :: rest => newPosts rest + 1
  | _ :: rest => newPosts rest

/-- The number of `CreatePost` calls of a trace that failed. -/
def failedPosts : List Event → Nat
  | [] => 0
  | Event.CreatePost _ false :: rest => failedPosts rest + 1
  | _ :: rest => failedPosts rest

/-- The lines a trace printed, in order. -/
def printed : List Event → List String
  | [] => []
  | Event.Printf text :: rest => text :: printed rest
  | _ :: rest => printed rest

/-- The limits of the `GetPostsForUser` calls of a trace, in order. -/
def queriedLimits : List Event → List Int
  | [] => []
  | Event.GetPostsForUser arg _ :: rest => arg.Limit :: queriedLimits rest
  | _ :: rest => queriedLimits rest

/-- Whether an event is a call of `MarkFeedFetched`. -/
def Event.isMark : Event → Bool
  | Event.MarkFeedFetched _ _ => true
  | _ => false

/-- Whether an event is a call of `fetchFeed`. -/
def Event.isFetch : Event → Bool
  | Event.fetchFeed _ _ => true
  | _ => false

/-- Whether an event is a call of `CreatePost`. -/
def Event.isCreate : Event → Bool
  | Event.CreatePost _ _ => true
  | _ => false

/-- Whether an event is one of the marks of the scheduling loop. -/
def Event.isLoopMark : Event → Bool
  | Event.cycleBegin => true
  | Event.cycleEnd => true
  | Event.tick => true
  | _ => false

/-- What the item loop leaves in the trace: calls of `CreatePost` and the
error line of a failed call, nothing else. -/
def Event.isItemEvent : Event → Bool
  | Event.CreatePost _ _ => true
  | Event.Printf _ => true
  | _ => false

/-- The argument `scrapeFeeds` builds for an item, up to the identifier and
the two timestamps drawn from the world. -/
def argMatches {σ : Type} (W : World σ) (feed : Feed) (arg : CreatePostParams)
    (item : RSSItem) : Prop :=
  arg.FeedID = feed.ID ∧ arg.Url = item.Link ∧ arg.Title = item.Title ∧
    arg.Description = { String := item.Description, Valid := true } ∧
    arg.PublishedAt = (publishedAtOf W item).Time

/-! ## Telling the errors of `fetchFeed` apart -/

/-- The stages of `fetchFeed` that can fail. -/
inductive FetchStage where
  | request
  | transport
  | status
  | read
  | decode
deriving DecidableEq, Repr

/-- Whether the text `s` begins with the text `p`. -/
def startsWith (p s : String) : Bool := p.data.isPrefixOf s.data

/-- The stage an error of `fetchFeed` comes from, read off the error value
alone: the text its message begins with and whether it wraps a cause (the
status error is the one built without `%w`). -/
def stageOf : GoError → Option FetchStage
  | .plain msg =>
    if startsWith "error fetching feed: received status code " msg then some .status
    else none
  | .wrapped msg _ =>
    if startsWith "error creating request: " msg then some .request
    else if startsWith "error fetching feed: " msg then some .transport
    else if startsWith "error reading response body: " msg then some .read
    else if startsWith "error unmarshalling XML: " msg then some .decode
    else none

/-- One pass of decoding over an item, field by field. -/
def unescapeItem (unescape : String → String) (item : RSSItem) : RSSItem :=
  { Title := unescape item.Title, Link := unescape item.Link,
    Description := unescape item.Description, PubDate := unescape item.PubDate }

/-! ## A small world to run the program on

`memWorld` is one inhabitant of `World`: an in-memory Feed Store, a counter
for identifiers, a clock, and the library functions given by finite tables of
the inputs that are used (only `Atoi` is the full function).  The theorems
below hold for every `World`; this one serves to evaluate the program. -/

/-- The state of the sample world. -/
structure Mem where
  feeds : List Feed := []
  posts : List Post := []
  clock : Int := 0
  nextID : Nat := 0
deriving DecidableEq, Repr

/-- The tables of the sample world: what the network answers for a URL, and
the values of the library functions at the inputs used. -/
structure Tables where
  web : List (String × Response) := []
  documents : List (String × RSSFeed) := []
  entities : List (String × String) := []
  dates : List (String × Time) := []
  durations : List (String × Int) := []

/-- Whether `a` was last fetched strictly before `b`, a feed never fetched
counting as older than any fetched one. -/
def fetchedBefore (a b : Feed) : Bool :=
  match a.LastFetchedAt.Valid, b.LastFetchedAt.Valid with
  | false, true => true
  | true, true =>
    decide (a.LastFetchedAt.Time.sec < b.LastFetchedAt.Time.sec) ||
      (decide (a.LastFetchedAt.Time.sec = b.LastFetchedAt.Time.sec) &&
        decide (a.LastFetchedAt.Time.nsec < b.LastFetchedAt.Time.nsec))
  | _, _ => false

/-- The least recently fetched feed of a list (the first such, on a tie). -/
def oldestFeed : List Feed → Option Feed
  | [] => none
  | f :: rest =>
    match oldestFeed rest with
    | none => some f
    | some g => if fetchedBefore g f then some g else some f

/-- Modelled from the spec: `GetNextFeedToFetch` of `internal/database` (not
among the sources): the feed with the oldest `last_fetched_at`, never-fetched
first; with no feeds, the no-rows condition. -/
def Mem.GetNextFeedToFetch (m : Mem) : Except GoError Feed × Mem :=
  match oldestFeed m.feeds with
  | none => (.error (.plain "sql: no rows in result set"), m)
  | some f => (.ok f, m)

/-- Modelled from the spec: `MarkFeedFetched` of `internal/database` (not
among the sources): sets the feed's `last_fetched_at` to the current time. -/
def Mem.MarkFeedFetched (id : UUID) (m : Mem) : Except GoError Feed × Mem :=
  match m.feeds.find? (fun f => f.ID == id) with
  | none => (.error (.plain "sql: no rows in result set"), m)
  | some f =>
    let g := { f with LastFetchedAt := { Time := { sec := m.clock }, Valid := true } }
    (.ok g, { m with feeds := m.feeds.map (fun x => if x.ID == id then g else x) })

/-- Modelled from the spec: `CreatePost` of `internal/database` (not among the
sources): a post's URL is unique per feed, and a second insertion of the same
URL for the same feed fails without adding a row. -/
def Mem.CreatePost (arg : CreatePostParams) (m : Mem) : Except GoError Post × Mem :=
  if m.posts.any (fun p => p.FeedID == arg.FeedID && p.Url == arg.Url) then
    (.error (.plain "pq: duplicate key value violates unique constraint"), m)
  else
    let post : Post :=
      { ID := arg.ID, CreatedAt := arg.CreatedAt, UpdatedAt := arg.UpdatedAt,
        Title := arg.Title, Url := arg.Url, Description := arg.Description,
        PublishedAt := arg.PublishedAt, FeedID := arg.FeedID }
    (.ok post, { m with posts := m.posts ++ [post] })

/-- Modelled from the spec: `GetPostsForUser` of `internal/database` (not
among the sources): a page of at most `Limit` posts.  The follow relation is
not part of this state, so every stored post counts as followed. -/
def Mem.GetPostsForUser (arg : GetPostsForUserParams) (m : Mem) :
    Except GoError (List Post) × Mem :=
  (.ok (m.posts.take arg.Limit.toNat), m)

/-- The value of a non-empty string of decimal digits. -/
def decimalValue : List Char → Option Nat
  | [] => none
  | c :: cs =>
    (c :: cs).foldlM
      (fun acc d => if d.isDigit then some (acc * 10 + (d.toNat - 48)) else none) 0

/-- Go's `strconv.Atoi` with a 64-bit `int`: an optional sign, then decimal
digits only, and the value within the range of `int` (the error text leaves
out the quoting of the argument). -/
def Atoi (s : String) : Except GoError Int :=
  let signed : Bool × List Char :=
    match s.data with
    | '-' :: rest => (true, rest)
    | '+' :: rest => (false, rest)
    | rest => (false, rest)
  match decimalValue signed.2 with
  | none => .error (.plain ("strconv.Atoi: parsing " ++ s ++ ": invalid syntax"))
  | some n =>
    let v : Int := if signed.1 then -(n : Int) else (n : Int)
    if v < -(2 ^ 63) ∨ 2 ^ 63 - 1 < v then
      .error (.plain ("strconv.Atoi: parsing " ++ s ++ ": value out of range"))
    else .ok v

/-- The sample world over the tables `T`. -/
def memWorld (T : Tables) : World Mem where
  GetNextFeedToFetch := Mem.GetNextFeedToFetch
  MarkFeedFetched := Mem.MarkFeedFetched
  CreatePost := Mem.CreatePost
  GetPostsForUser := Mem.GetPostsForUser
  uuidNew := fun m => (m.nextID, { m with nextID := m.nextID + 1 })
  timeNow := fun m => ({ sec := m.clock }, { m with clock := m.clock + 1 })
  NewRequestGet := fun url =>
    if url.data.any (fun c => decide (c.toNat < 32)) then
      .error (.plain "net/url: invalid control character in URL")
    else .ok { Method := "GET", URL := url }
  Do := fun req m =>
    match T.web.lookup req.URL with
    | none => (.error (.plain ("Get " ++ req.URL ++ ": no such host")), m)
    | some resp => (.ok resp, m)
  xmlUnmarshal := fun data =>
    match T.documents.lookup data with
    | none => .error (.plain "EOF")
    | some feed => .ok feed
  UnescapeString := fun text => (T.entities.lookup text).getD text
  timeParseRFC1123Z := fun text =>
    match T.dates.lookup text with
    | none => .error (.plain ("parsing time " ++ text))
    | some t => .ok t
  ParseDuration := fun text =>
    match T.durations.lookup text with
    | none => .error (.plain ("time: invalid duration " ++ text))
    | some d => .ok d
  Atoi := Atoi
  uuidString := fun id => toString id
  timeString := fun t => toString t.sec

/-- A feed document with three items; the second has no usable date. -/
def sampleDoc : RSSFeed :=
  { Channel :=
    { Title := "A &amp; B", Link := "https://blog.example", Description := "&amp;amp;",
      Item :=
        [ { Title := "one", Link := "https://blog.example/1", Description := "first",
            PubDate := "Mon, 02 Jan 2006 15:04:05 -0700" },
          { Title := "two", Link := "https://blog.example/2", Description := "x &amp; y",
            PubDate := "yesterday" },
          { Title := "three", Link := "https://blog.example/3", Description := "third",
            PubDate := "Tue, 03 Jan 2006 15:04:05 -0700" } ] } }

/-- The tables of the sample world. -/
def sampleTables : Tables where
  web :=
    [ ("https://blog.example/rss", { StatusCode := 200, Body := .ok "<rss>blog</rss>" }),
      ("https://gone.example/rss", { StatusCode := 404, Body := .ok "not found" }),
      ("https://made.example/rss", { StatusCode := 201, Body := .ok "<rss>blog</rss>" }),
      ("https://cut.example/rss", { StatusCode := 200, Body := .error (.plain "unexpected EOF") }),
      ("https://text.example/rss", { StatusCode := 200, Body := .ok "hello" }) ]
  documents := [ ("<rss>blog</rss>", sampleDoc) ]
  entities :=
    [ ("A &amp; B", "A & B"), ("&amp;amp;", "&amp;"), ("&amp;", "&"), ("x &amp; y", "x & y") ]
  dates :=
    [ ("Mon, 02 Jan 2006 15:04:05 -0700", { sec := 63271836245 }),
      ("Tue, 03 Jan 2006 15:04:05 -0700", { sec := 63271922645 }) ]
  durations := [ ("1m", 60000000000), ("30s", 30000000000), ("0s", 0), ("-5s", -5000000000) ]

/-- The sample world. -/
def sampleWorld : World Mem := memWorld sampleTables

/-- The feed of the sample store that answers with the sample document. -/
def blogFeed : Feed :=
  { ID := 7, Name := "blog", Url := "https://blog.example/rss", UserID := 1 }

/-- A feed of the sample store whose source answers 404. -/
def goneFeed : Feed :=
  { ID := 8, Name := "gone", Url := "https://gone.example/rss", UserID := 1 }

/-- A feed as the sample store returns it once stamped at the given second. -/
def stampedAt (sec : Int) (f : Feed) : Feed :=
  { f with LastFetchedAt := { Time := { sec := sec }, Valid := true } }

/-- A store holding the blog feed and no posts. -/
def freshStore : Mem := { feeds := [blogFeed], nextID := 100, clock := 1000 }

/-- A store holding the blog feed and already the post of its second item. -/
def seenStore : Mem :=
  { feeds := [blogFeed], nextID := 100, clock := 1000,
    posts :=
      [ { ID := 50, CreatedAt := { sec := 900 }, UpdatedAt := { sec := 900 }, Title := "two",
          Url := "https://blog.example/2", Description := { String := "x & y", Valid := true },
          PublishedAt := {}, FeedID := 7 } ] }

/-- A store whose only feed has an unreachable document. -/
def goneStore : Mem := { feeds := [goneFeed], nextID := 100, clock := 1000 }

/-- A store without feeds. -/
def emptyStore : Mem := { nextID := 100, clock := 1000 }

/-! ## Lemmas on traces -/

theorem createPostCalls_append (xs ys : List Event) :
    createPostCalls (xs ++ ys) = createPostCalls xs ++ createPostCalls ys := by
  induction xs with
  | nil => rfl
  | cons x xs ih => cases x <;> simp [createPostCalls, ih]

theorem newPosts_append (xs ys : List Event) :
    newPosts (xs ++ ys) = newPosts xs + newPosts ys := by
  induction xs with
  | nil => simp [newPosts]
  | cons x xs ih =>
    cases x with
    | CreatePost arg ok => cases ok <;> simp [newPosts, ih]; omega
    | _ => simp [newPosts, ih]

theorem failedPosts_append (xs ys : List Event) :
    failedPosts (xs ++ ys) = failedPosts xs + failedPosts ys := by
  induction xs with
  | nil => simp [failedPosts]
  | cons x xs ih =>
    cases x with
    | CreatePost arg ok => cases ok <;> simp [failedPosts, ih]; omega
    | _ => simp [failedPosts, ih]

theorem printed_append (xs ys : List Event) :
    printed (xs ++ ys) = printed xs ++ printed ys := by
  induction xs with
  | nil => rfl
  | cons x xs ih => cases x <;> simp [printed, ih]

theorem scrapeItems_events {σ : Type} (W : World σ) (feed : Feed) (items : List RSSItem) :
    ∀ s : σ, ∀ e ∈ (scrapeItems W feed items s).2, e.isItemEvent = true := by
  induction items with
  | nil => intro s e he; simp [scrapeItems] at he
  | cons item rest ih =>
    intro s e he
    simp only [scrapeItems] at he
    split at he
    · simp only [List.mem_cons] at he
      rcases he with rfl | rfl | he
      · rfl
      · rfl
      · exact ih _ e he
    · simp only [List.mem_cons] at he
      rcases he with rfl | he
      · rfl
      · exact ih _ e he

theorem scrapeItems_calls {σ : Type} (W : World σ) (feed : Feed) (items : List RSSItem) :
    ∀ s : σ, List.Forall₂ (argMatches W feed)
      (createPostCalls (scrapeItems W feed items s).2) items := by
  induction items with
  | nil => intro s; simp [scrapeItems, createPostCalls]
  | cons item rest ih =>
    intro s
    simp only [scrapeItems]
    split
    · simp only [createPostCalls]
      exact List.Forall₂.cons ⟨rfl, rfl, rfl, rfl, rfl⟩ (ih _)
    · simp only [createPostCalls]
      exact List.Forall₂.cons ⟨rfl, rfl, rfl, rfl, rfl⟩ (ih _)

theorem scrapeItems_counts {σ : Type} (W : World σ) (feed : Feed) (items : List RSSItem) :
    ∀ s : σ, newPosts (scrapeItems W feed items s).2
        + failedPosts (scrapeItems W feed items s).2 = items.length ∧
      (printed (scrapeItems W feed items s).2).length
        = failedPosts (scrapeItems W feed items s).2 := by
  induction items with
  | nil => intro s; simp [scrapeItems, newPosts, failedPosts, printed]
  | cons item rest ih =>
    intro s
    simp only [scrapeItems]
    split
    · rename_i err s4 h
      have := ih s4
      simp only [newPosts, failedPosts, printed, List.length_cons]
      omega
    · rename_i post s4 h
      have := ih s4
      simp only [newPosts, failedPosts, printed, List.length_cons]
      omega

/-- The trace of a cycle in which selection, stamping and fetching succeed. -/
theorem scrapeFeeds_ok {σ : Type} (W : World σ) (s s1 s2 s3 : σ) (feed stamped : Feed)
    (doc : RSSFeed)
    (hsel : W.GetNextFeedToFetch s = (.ok feed, s1))
    (hmark : W.MarkFeedFetched feed.ID s1 = (.ok stamped, s2))
    (hfetch : fetchFeed W feed.Url s2 = (.ok doc, s3)) :
    (scrapeFeeds W s).2 =
      [Event.GetNextFeedToFetch true, Event.MarkFeedFetched feed.ID true,
        Event.fetchFeed feed.Url true]
      ++ (scrapeItems W feed doc.Channel.Item s3).2
      ++ [Event.Printf ("Feed " ++ feed.Name ++ " processed successfully. Found "
            ++ toString doc.Channel.Item.length ++ " posts\n")] := by
  simp only [scrapeFeeds, hsel, hmark, hfetch]

theorem scrapeItems_printed {σ : Type} (W : World σ) (feed : Feed) (items : List RSSItem) :
    ∀ s : σ, ∀ text ∈ printed (scrapeItems W feed items s).2,
      ∃ err : GoError, text = "Error creating post: " ++ err.Error ++ "\n" := by
  induction items with
  | nil => intro s text h; simp [scrapeItems, printed] at h
  | cons item rest ih =>
    intro s text h
    simp only [scrapeItems] at h
    split at h
    · rename_i err s4 hc
      simp only [printed, List.mem_cons] at h
      rcases h with rfl | h
      · exact ⟨err, rfl⟩
      · exact ih _ text h
    · simp only [printed] at h
      exact ih _ text h

theorem forall₂_getElem? {α β : Type} {R : α → β → Prop} :
    ∀ {as : List α} {bs : List β}, List.Forall₂ R as bs →
      ∀ (i : Nat) (b : β), bs[i]? = some b → ∃ a, as[i]? = some a ∧ R a b := by
  intro as bs h
  induction h with
  | nil => intro i b hb; simp at hb
  | cons hab _ ih =>
    intro i b hb
    cases i with
    | zero =>
      simp only [List.getElem?_cons_zero, Option.some.injEq] at hb
      subst hb
      exact ⟨_, by simp, hab⟩
    | succ i =>
      simp only [List.getElem?_cons_succ] at hb
      obtain ⟨a, ha, hr⟩ := ih i b hb
      exact ⟨a, by simpa using ha, hr⟩

theorem createPostResults_append (xs ys : List Event) :
    createPostResults (xs ++ ys) = createPostResults xs ++ createPostResults ys := by
  induction xs with
  | nil => rfl
  | cons x xs ih => cases x <;> simp [createPostResults, ih]

theorem createPostResults_fst (xs : List Event) :
    (createPostResults xs).map (fun c => c.1) = createPostCalls xs := by
  induction xs with
  | nil => rfl
  | cons x xs ih => cases x <;> simp [createPostResults, createPostCalls, ih]

/-- The item loop, call by call: `st i` is the state before item `i`; the
identifier and the two timestamps are drawn from it in turn, `CreatePost` is
applied to the argument built from them on the state that leaves, and what
it returns is the state before the next item. -/
theorem scrapeItems_run {σ : Type} (W : World σ) (feed : Feed) (items : List RSSItem) :
    ∀ s : σ, ∃ st : Nat → σ, st 0 = s ∧ st items.length = (scrapeItems W feed items s).1 ∧
      ∀ (i : Nat) (item : RSSItem), items[i]? = some item →
        ∃ (arg : CreatePostParams) (r : Except GoError Post),
          W.CreatePost arg (W.timeNow (W.timeNow (W.uuidNew (st i)).2).2).2 = (r, st (i + 1)) ∧
          arg.ID = (W.uuidNew (st i)).1 ∧
          arg.CreatedAt = (W.timeNow (W.uuidNew (st i)).2).1 ∧
          arg.UpdatedAt = (W.timeNow (W.timeNow (W.uuidNew (st i)).2).2).1 ∧
          arg.FeedID = feed.ID ∧ arg.Url = item.Link ∧ arg.Title = item.Title ∧
          arg.Description = { String := item.Description, Valid := true } ∧
          (createPostResults (scrapeItems W feed items s).2)[i]? = some (arg, r.toBool) := by
  induction items with
  | nil =>
    intro s
    exact ⟨fun _ => s, rfl, rfl, by intro i item h; simp at h⟩
  | cons item rest ih =>
    intro s
    rcases hc : W.CreatePost
        { ID := (W.uuidNew s).1, CreatedAt := (W.timeNow (W.uuidNew s).2).1,
          UpdatedAt := (W.timeNow (W.timeNow (W.uuidNew s).2).2).1, FeedID := feed.ID,
          Title := item.Title, Description := { String := item.Description, Valid := true },
          Url := item.Link, PublishedAt := (publishedAtOf W item).Time }
        (W.timeNow (W.timeNow (W.uuidNew s).2).2).2 with ⟨r, s4⟩
    obtain ⟨st, h0, hn, hstep⟩ := ih s4
    subst h0
    refine ⟨fun k => match k with
      | 0 => s
      | k + 1 => st k, rfl, ?_, ?_⟩
    · show st rest.length = _
      rw [hn]
      cases r <;> simp only [scrapeItems, hc]
    · intro i it hi
      cases i with
      | zero =>
        simp only [List.getElem?_cons_zero, Option.some.injEq] at hi
        subst hi
        refine ⟨_, r, hc, rfl, rfl, rfl, rfl, rfl, rfl, rfl, ?_⟩
        cases r <;> simp [scrapeItems, hc, createPostResults, Except.toBool]
      | succ i =>
        simp only [List.getElem?_cons_succ] at hi
        obtain ⟨arg, r2, h1, h2, h3, h4, h5, h6, h7, h8, h9⟩ := hstep i it hi
        refine ⟨arg, r2, h1, h2, h3, h4, h5, h6, h7, h8, ?_⟩
        cases r <;> simpa [scrapeItems, hc, createPostResults] using h9

/-! ## The fetch cycle -/

/-- C1: in every cycle whose feed selection succeeds, `MarkFeedFetched` is
called exactly once, with the selected feed's ID, on the state the selection
left, right after the selection and before any call of `fetchFeed`; the
fetch, when the stamp succeeded, is the next call and runs on the state the
stamp returned.  The stamp is kept whatever the fetch yields: the state the
cycle ends in is the one the stamp returned when the stamp failed, the one
the fetch returned from the stamped state when the fetch failed, and the one
the item loop reaches from there when the fetch succeeded. -/
theorem scrapeFeeds_stamps_selected_feed {σ : Type} (W : World σ) (s s1 : σ) (feed : Feed)
    (hsel : W.GetNextFeedToFetch s = (.ok feed, s1)) :
    (∃ post : List Event,
      (scrapeFeeds W s).2
          = Event.GetNextFeedToFetch true
              :: Event.MarkFeedFetched feed.ID (W.MarkFeedFetched feed.ID s1).1.toBool
              :: post ∧
        (∀ e ∈ post, e.isMark = false) ∧
        ((W.MarkFeedFetched feed.ID s1).1.toBool = false →
          ∀ e ∈ post, e.isFetch = false) ∧
        ((W.MarkFeedFetched feed.ID s1).1.toBool = true → ∃ rest : List Event,
          post = Event.fetchFeed feed.Url
              (fetchFeed W feed.Url (W.MarkFeedFetched feed.ID s1).2).1.toBool :: rest ∧
            ∀ e ∈ rest, e.isMark = false ∧ e.isFetch = false)) ∧
    (∀ err s2, W.MarkFeedFetched feed.ID s1 = (.error err, s2) →
      scrapeFeeds W s = (s2, [Event.GetNextFeedToFetch true,
        Event.MarkFeedFetched feed.ID false,
        Event.Printf ("Error marking feed as fetched: " ++ err.Error ++ "\n")])) ∧
    (∀ stamped s2 err s3, W.MarkFeedFetched feed.ID s1 = (.ok stamped, s2) →
      fetchFeed W feed.Url s2 = (.error err, s3) →
      scrapeFeeds W s = (s3, [Event.GetNextFeedToFetch true,
        Event.MarkFeedFetched feed.ID true, Event.fetchFeed feed.Url false,
        Event.Printf ("Error fetching feed: " ++ err.Error ++ "\n")])) ∧
    (∀ stamped s2 doc s3, W.MarkFeedFetched feed.ID s1 = (.ok stamped, s2) →
      fetchFeed W feed.Url s2 = (.ok doc, s3) →
      scrapeFeeds W s = ((scrapeItems W feed doc.Channel.Item s3).1,
        [Event.GetNextFeedToFetch true, Event.MarkFeedFetched feed.ID true,
          Event.fetchFeed feed.Url true]
        ++ (scrapeItems W feed doc.Channel.Item s3).2
        ++ [Event.Printf ("Feed " ++ feed.Name ++ " processed successfully. Found "
              ++ toString doc.Channel.Item.length ++ " posts\n")])) := by
  refine ⟨?_, ?_, ?_, ?_⟩
  · rcases hmark : W.MarkFeedFetched feed.ID s1 with ⟨err | stamped, s2⟩
    · refine ⟨[Event.Printf ("Error marking feed as fetched: " ++ err.Error ++ "\n")],
        ?_, ?_, ?_, ?_⟩
      · simp only [scrapeFeeds, hsel, hmark, Except.toBool]
      · intro e he
        simp only [List.mem_singleton] at he
        subst he; rfl
      · intro _ e he
        simp only [List.mem_singleton] at he
        subst he; rfl
      · intro h; cases h
    · rcases hfetch : fetchFeed W feed.Url s2 with ⟨err | doc, s3⟩
      · refine ⟨[Event.fetchFeed feed.Url false,
            Event.Printf ("Error fetching feed: " ++ err.Error ++ "\n")], ?_, ?_, ?_, ?_⟩
        · simp only [scrapeFeeds, hsel, hmark, hfetch, Except.toBool]
        · intro e he
          simp only [List.mem_cons, List.mem_singleton, List.not_mem_nil, or_false] at he
          rcases he with rfl | rfl <;> rfl
        · intro h; cases h
        · intro _
          refine ⟨_, rfl, ?_⟩
          intro e he
          simp only [List.mem_singleton] at he
          subst he; exact ⟨rfl, rfl⟩
      · have hitems : ∀ e ∈ (scrapeItems W feed doc.Channel.Item s3).2,
            e.isMark = false ∧ e.isFetch = false := by
          intro e he
          have := scrapeItems_events W feed doc.Channel.Item s3 e he
          cases e <;> simp_all [Event.isItemEvent, Event.isMark, Event.isFetch]
        refine ⟨Event.fetchFeed feed.Url true ::
            ((scrapeItems W feed doc.Channel.Item s3).2 ++
              [Event.Printf ("Feed " ++ feed.Name ++ " processed successfully. Found "
                ++ toString doc.Channel.Item.length ++ " posts\n")]), ?_, ?_, ?_, ?_⟩
        · rw [scrapeFeeds_ok W s s1 s2 s3 feed stamped doc hsel hmark hfetch]
          simp only [List.cons_append, List.nil_append, Except.toBool]
        · intro e he
          simp only [List.mem_cons, List.mem_append, List.mem_singleton, List.not_mem_nil,
            or_false] at he
          rcases he with rfl | he | rfl
          · rfl
          · exact (hitems e he).1
          · rfl
        · intro h; cases h
        · intro _
          refine ⟨_, rfl, ?_⟩
          intro e he
          simp only [List.mem_append, List.mem_singleton] at he
          rcases he with he | rfl
          · exact hitems e he
          · exact ⟨rfl, rfl⟩
  · intro err s2 h2
    simp only [scrapeFeeds, hsel, h2]
  · intro stamped s2 err s3 h2 h3
    simp only [scrapeFeeds, hsel, h2, h3]
  · intro stamped s2 doc s3 h2 h3
    simp only [scrapeFeeds, hsel, h2, h3]

/-- Witness for C1: the one feed of `goneStore` answers 404; it is stamped
once, before the failing fetch, and the store the cycle leaves holds the
feed with its `last_fetched_at` set. -/
theorem scrapeFeeds_stamps_selected_feed_witness :
    sampleWorld.GetNextFeedToFetch goneStore = (.ok goneFeed, goneStore) ∧
    sampleWorld.MarkFeedFetched goneFeed.ID goneStore
      = (.ok (stampedAt 1000 goneFeed), { goneStore with feeds := [stampedAt 1000 goneFeed] }) ∧
    scrapeFeeds sampleWorld goneStore
      = ({ goneStore with feeds := [stampedAt 1000 goneFeed] },
          [Event.GetNextFeedToFetch true, Event.MarkFeedFetched goneFeed.ID true,
            Event.fetchFeed goneFeed.Url false,
            Event.Printf ("Error fetching feed: "
              ++ (GoError.plain "error fetching feed: received status code 404").Error
              ++ "\n")]) :=
  ⟨by decide, by decide,
    (scrapeFeeds_stamps_selected_feed sampleWorld goneStore goneStore goneFeed
      (by decide)).2.2.1 (stampedAt 1000 goneFeed)
      { goneStore with feeds := [stampedAt 1000 goneFeed] }
      (.plain "error fetching feed: received status code 404")
      { goneStore with feeds := [stampedAt 1000 goneFeed] } (by decide) (by decide)⟩

/-- C2: in every cycle that fetched a document, whatever each insertion
yields, `CreatePost` is applied once per item of the document, in source
order, with the item's link as URL and the selected feed's ID (and the item's
title and description, a fresh identifier and the current time twice): with
`st i` the state before item `i`, starting at the state the fetch left, the
call for item `i` is made on the state reached after drawing the identifier
and the timestamps, the state it returns is the state before item `i + 1`
whether it succeeded or failed, and the state after the last item is the
state the cycle ends in.  Every call counts as a success or a failure, a
failure stops nothing, and the cycle runs to its closing report. -/
theorem scrapeFeeds_attempts_every_item {σ : Type} (W : World σ) (s s1 s2 s3 : σ)
    (feed stamped : Feed) (doc : RSSFeed)
    (hsel : W.GetNextFeedToFetch s = (.ok feed, s1))
    (hmark : W.MarkFeedFetched feed.ID s1 = (.ok stamped, s2))
    (hfetch : fetchFeed W feed.Url s2 = (.ok doc, s3)) :
    List.Forall₂
        (fun (arg : CreatePostParams) (item : RSSItem) =>
          arg.Url = item.Link ∧ arg.FeedID = feed.ID ∧ arg.Title = item.Title ∧
            arg.Description = { String := item.Description, Valid := true })
        (createPostCalls (scrapeFeeds W s).2) doc.Channel.Item ∧
      (createPostCalls (scrapeFeeds W s).2).length = doc.Channel.Item.length ∧
      newPosts (scrapeFeeds W s).2 + failedPosts (scrapeFeeds W s).2
        = doc.Channel.Item.length ∧
      (scrapeFeeds W s).2.getLast? =
        some (Event.Printf ("Feed " ++ feed.Name ++ " processed successfully. Found "
          ++ toString doc.Channel.Item.length ++ " posts\n")) ∧
      (createPostResults (scrapeFeeds W s).2).length = doc.Channel.Item.length ∧
      ∃ st : Nat → σ, st 0 = s3 ∧ st doc.Channel.Item.length = (scrapeFeeds W s).1 ∧
        ∀ (i : Nat) (item : RSSItem), doc.Channel.Item[i]? = some item →
          ∃ (arg : CreatePostParams) (r : Except GoError Post),
            W.CreatePost arg (W.timeNow (W.timeNow (W.uuidNew (st i)).2).2).2
              = (r, st (i + 1)) ∧
            arg.ID = (W.uuidNew (st i)).1 ∧
            arg.CreatedAt = (W.timeNow (W.uuidNew (st i)).2).1 ∧
            arg.UpdatedAt = (W.timeNow (W.timeNow (W.uuidNew (st i)).2).2).1 ∧
            arg.FeedID = feed.ID ∧ arg.Url = item.Link ∧ arg.Title = item.Title ∧
            arg.Description = { String := item.Description, Valid := true } ∧
            (createPostResults (scrapeFeeds W s).2)[i]? = some (arg, r.toBool) := by
  have hcalls : createPostCalls (scrapeFeeds W s).2
      = createPostCalls (scrapeItems W feed doc.Channel.Item s3).2 := by
    rw [scrapeFeeds_ok W s s1 s2 s3 feed stamped doc hsel hmark hfetch]
    simp [createPostCalls_append, createPostCalls]
  have hres : createPostResults (scrapeFeeds W s).2
      = createPostResults (scrapeItems W feed doc.Channel.Item s3).2 := by
    rw [scrapeFeeds_ok W s s1 s2 s3 feed stamped doc hsel hmark hfetch]
    simp [createPostResults_append, createPostResults]
  have hstate : (scrapeFeeds W s).1 = (scrapeItems W feed doc.Channel.Item s3).1 := by
    simp only [scrapeFeeds, hsel, hmark, hfetch]
  have hall := scrapeItems_calls W feed doc.Channel.Item s3
  refine ⟨?_, ?_, ?_, ?_, ?_, ?_⟩
  · rw [hcalls]
    exact hall.imp (fun _ _ h => ⟨h.2.1, h.1, h.2.2.1, h.2.2.2.1⟩)
  · rw [hcalls]
    exact hall.length_eq
  · rw [scrapeFeeds_ok W s s1 s2 s3 feed stamped doc hsel hmark hfetch]
    have := (scrapeItems_counts W feed doc.Channel.Item s3).1
    rw [newPosts_append, failedPosts_append, newPosts_append, failedPosts_append]
    simp only [newPosts, failedPosts]
    omega
  · rw [scrapeFeeds_ok W s s1 s2 s3 feed stamped doc hsel hmark hfetch]
    exact List.getLast?_concat _
  · rw [hres, ← hall.length_eq, ← createPostResults_fst, List.length_map]
  · obtain ⟨st, h0, hn, hstep⟩ := scrapeItems_run W feed doc.Channel.Item s3
    refine ⟨st, h0, by rw [hn, hstate], ?_⟩
    intro i item hi
    rw [hres]
    exact hstep i item hi

/-- Witness for C2: in `seenStore` the second of the three items is already
stored, its insertion fails, and the third is attempted all the same; the
store the cycle leaves holds the old post and the two new ones. -/
theorem scrapeFeeds_attempts_every_item_witness :
    (createPostCalls (scrapeFeeds sampleWorld seenStore).2).map (fun arg => (arg.Url, arg.FeedID))
        = [("https://blog.example/1", 7), ("https://blog.example/2", 7),
            ("https://blog.example/3", 7)] ∧
      (createPostResults (scrapeFeeds sampleWorld seenStore).2).map (fun c => c.2)
        = [true, false, true] ∧
      (scrapeFeeds sampleWorld seenStore).1.posts.map (fun post => post.Url)
        = ["https://blog.example/2", "https://blog.example/1", "https://blog.example/3"] ∧
      failedPosts (scrapeFeeds sampleWorld seenStore).2 = 1 ∧
      (createPostCalls (scrapeFeeds sampleWorld seenStore).2).length
        = (unescapeFeed sampleWorld.UnescapeString sampleDoc).Channel.Item.length :=
  ⟨by decide, by decide, by decide, by decide,
    (scrapeFeeds_attempts_every_item sampleWorld seenStore seenStore
      (Mem.MarkFeedFetched 7 seenStore).2 (Mem.MarkFeedFetched 7 seenStore).2
      blogFeed (stampedAt 1000 blogFeed)
      (unescapeFeed sampleWorld.UnescapeString sampleDoc)
      (by decide) (by decide) (by decide)).2.1⟩

/-- C4: in every cycle that fetched a document, for every item of the
document the insertion is attempted (the call at the item's position carries
its link), with the zero time as `PublishedAt` when the item's date string
does not parse under RFC1123Z, and with the parsed time when it does. -/
theorem scrapeFeeds_published_at {σ : Type} (W : World σ) (s s1 s2 s3 : σ)
    (feed stamped : Feed) (doc : RSSFeed)
    (hsel : W.GetNextFeedToFetch s = (.ok feed, s1))
    (hmark : W.MarkFeedFetched feed.ID s1 = (.ok stamped, s2))
    (hfetch : fetchFeed W feed.Url s2 = (.ok doc, s3))
    (i : Nat) (item : RSSItem) (hitem : doc.Channel.Item[i]? = some item) :
    ∃ arg : CreatePostParams,
      (createPostCalls (scrapeFeeds W s).2)[i]? = some arg ∧ arg.Url = item.Link ∧
        (∀ err, W.timeParseRFC1123Z item.PubDate = .error err →
          arg.PublishedAt = Time.zero) ∧
        (∀ t, W.timeParseRFC1123Z item.PubDate = .ok t → arg.PublishedAt = t) := by
  have hcalls : createPostCalls (scrapeFeeds W s).2
      = createPostCalls (scrapeItems W feed doc.Channel.Item s3).2 := by
    rw [scrapeFeeds_ok W s s1 s2 s3 feed stamped doc hsel hmark hfetch]
    simp [createPostCalls_append, createPostCalls]
  obtain ⟨arg, harg, hm⟩ :=
    forall₂_getElem? (scrapeItems_calls W feed doc.Channel.Item s3) i item hitem
  refine ⟨arg, by rw [hcalls]; exact harg, hm.2.1, ?_, ?_⟩
  · intro err herr
    rw [hm.2.2.2.2]
    simp only [publishedAtOf, herr]
    rfl
  · intro t ht
    rw [hm.2.2.2.2]
    simp only [publishedAtOf, ht]

/-- Witness for C4: the second item of the sample document is dated
"yesterday", which does not parse; its post is inserted with the zero time. -/
theorem scrapeFeeds_published_at_witness :
    (unescapeFeed sampleWorld.UnescapeString sampleDoc).Channel.Item[1]?
        = some { Title := "two", Link := "https://blog.example/2", Description := "x & y",
                 PubDate := "yesterday" } ∧
      sampleWorld.timeParseRFC1123Z "yesterday" = .error (.plain "parsing time yesterday") ∧
      ∃ arg : CreatePostParams,
        (createPostCalls (scrapeFeeds sampleWorld freshStore).2)[1]? = some arg ∧
          arg.Url = "https://blog.example/2" ∧
          (∀ err, sampleWorld.timeParseRFC1123Z "yesterday" = .error err →
            arg.PublishedAt = Time.zero) ∧
          (∀ t, sampleWorld.timeParseRFC1123Z "yesterday" = .ok t → arg.PublishedAt = t) :=
  ⟨by decide, by decide,
    scrapeFeeds_published_at sampleWorld freshStore freshStore
      (Mem.MarkFeedFetched 7 freshStore).2 (Mem.MarkFeedFetched 7 freshStore).2
      blogFeed (stampedAt 1000 blogFeed)
      (unescapeFeed sampleWorld.UnescapeString sampleDoc)
      (by decide) (by decide) (by decide) 1
      { Title := "two", Link := "https://blog.example/2", Description := "x & y",
        PubDate := "yesterday" } (by decide)⟩

/-- C3, as the claim states it, fails: for the document with 3 items of which
1 has a URL already stored for the feed, 2 posts are created and 1 insertion
fails, but all the cycle prints is the error line of the failed insertion
and the closing line "Found 3 posts"; that closing line is the same as when
all 3 posts are new.  No count of new posts and no count of skips is
reported. -/
theorem scrapeFeeds_report_has_no_new_post_count :
    newPosts (scrapeFeeds sampleWorld seenStore).2 = 2 ∧
      failedPosts (scrapeFeeds sampleWorld seenStore).2 = 1 ∧
      printed (scrapeFeeds sampleWorld seenStore).2 =
        ["Error creating post: pq: duplicate key value violates unique constraint\n",
          "Feed blog processed successfully. Found 3 posts\n"] ∧
      newPosts (scrapeFeeds sampleWorld freshStore).2 = 3 ∧
      (scrapeFeeds sampleWorld freshStore).2.getLast?
        = (scrapeFeeds sampleWorld seenStore).2.getLast? := by
  decide

/-- C3, amended: in every cycle that fetched a document, what is printed is
one line "Error creating post: ..." per failed insertion, as it happens, and
then the closing report, which names the feed and the number of items found
in the document (succeeded plus failed insertions) and nothing else. -/
theorem scrapeFeeds_reports_items_found {σ : Type} (W : World σ) (s s1 s2 s3 : σ)
    (feed stamped : Feed) (doc : RSSFeed)
    (hsel : W.GetNextFeedToFetch s = (.ok feed, s1))
    (hmark : W.MarkFeedFetched feed.ID s1 = (.ok stamped, s2))
    (hfetch : fetchFeed W feed.Url s2 = (.ok doc, s3)) :
    ∃ errorLines : List String,
      printed (scrapeFeeds W s).2 = errorLines ++
          ["Feed " ++ feed.Name ++ " processed successfully. Found "
            ++ toString doc.Channel.Item.length ++ " posts\n"] ∧
        errorLines.length = failedPosts (scrapeFeeds W s).2 ∧
        (∀ text ∈ errorLines,
          ∃ err : GoError, text = "Error creating post: " ++ err.Error ++ "\n") ∧
        newPosts (scrapeFeeds W s).2 + failedPosts (scrapeFeeds W s).2
          = doc.Channel.Item.length := by
  have hc := scrapeItems_counts W feed doc.Channel.Item s3
  refine ⟨printed (scrapeItems W feed doc.Channel.Item s3).2, ?_, ?_, ?_, ?_⟩
  · rw [scrapeFeeds_ok W s s1 s2 s3 feed stamped doc hsel hmark hfetch]
    rw [printed_append, printed_append]
    simp only [printed, List.nil_append]
  · rw [scrapeFeeds_ok W s s1 s2 s3 feed stamped doc hsel hmark hfetch]
    rw [failedPosts_append, failedPosts_append]
    simp only [failedPosts]
    omega
  · exact scrapeItems_printed W feed doc.Channel.Item s3
  · rw [scrapeFeeds_ok W s s1 s2 s3 feed stamped doc hsel hmark hfetch]
    rw [newPosts_append, failedPosts_append, newPosts_append, failedPosts_append]
    simp only [newPosts, failedPosts]
    omega

/-- Witness for the amended C3, on the store that already holds the second
item's URL. -/
theorem scrapeFeeds_reports_items_found_witness :
    ∃ errorLines : List String,
      printed (scrapeFeeds sampleWorld seenStore).2 = errorLines ++
          ["Feed " ++ blogFeed.Name ++ " processed successfully. Found "
            ++ toString (unescapeFeed sampleWorld.UnescapeString
                sampleDoc).Channel.Item.length ++ " posts\n"] ∧
        errorLines.length = failedPosts (scrapeFeeds sampleWorld seenStore).2 ∧
        (∀ text ∈ errorLines,
          ∃ err : GoError, text = "Error creating post: " ++ err.Error ++ "\n") ∧
        newPosts (scrapeFeeds sampleWorld seenStore).2
            + failedPosts (scrapeFeeds sampleWorld seenStore).2
          = (unescapeFeed sampleWorld.UnescapeString sampleDoc).Channel.Item.length :=
  scrapeFeeds_reports_items_found sampleWorld seenStore seenStore
    (Mem.MarkFeedFetched 7 seenStore).2 (Mem.MarkFeedFetched 7 seenStore).2
    blogFeed (stampedAt 1000 blogFeed)
    (unescapeFeed sampleWorld.UnescapeString sampleDoc)
    (by decide) (by decide) (by decide)

/-- C6: a cycle attempts `CreatePost` only if selection, stamping and
fetching all succeeded.  When `GetNextFeedToFetch` fails the cycle prints the
error and ends with no stamp, no fetch and no insertion; when
`MarkFeedFetched` fails it ends with no fetch and no insertion; when
`fetchFeed` fails it ends with no insertion.  In each case `scrapeFeeds`
returns (it has no error to hand to its caller). -/
theorem scrapeFeeds_failure_ends_cycle {σ : Type} (W : World σ) (s : σ) :
    (∀ err s1, W.GetNextFeedToFetch s = (.error err, s1) →
      scrapeFeeds W s = (s1, [Event.GetNextFeedToFetch false,
        Event.Printf ("Error retrieving next feed to fetch: " ++ err.Error ++ "\n")])) ∧
    (∀ feed s1 err s2, W.GetNextFeedToFetch s = (.ok feed, s1) →
      W.MarkFeedFetched feed.ID s1 = (.error err, s2) →
      scrapeFeeds W s = (s2, [Event.GetNextFeedToFetch true,
        Event.MarkFeedFetched feed.ID false,
        Event.Printf ("Error marking feed as fetched: " ++ err.Error ++ "\n")])) ∧
    (∀ feed s1 stamped s2 err s3, W.GetNextFeedToFetch s = (.ok feed, s1) →
      W.MarkFeedFetched feed.ID s1 = (.ok stamped, s2) →
      fetchFeed W feed.Url s2 = (.error err, s3) →
      scrapeFeeds W s = (s3, [Event.GetNextFeedToFetch true,
        Event.MarkFeedFetched feed.ID true, Event.fetchFeed feed.Url false,
        Event.Printf ("Error fetching feed: " ++ err.Error ++ "\n")])) ∧
    ((∃ e ∈ (scrapeFeeds W s).2, e.isCreate = true) →
      ∃ feed s1 stamped s2 doc s3, W.GetNextFeedToFetch s = (.ok feed, s1) ∧
        W.MarkFeedFetched feed.ID s1 = (.ok stamped, s2) ∧
        fetchFeed W feed.Url s2 = (.ok doc, s3)) := by
  refine ⟨?_, ?_, ?_, ?_⟩
  · intro err s1 h
    simp only [scrapeFeeds, h]
  · intro feed s1 err s2 h1 h2
    simp only [scrapeFeeds, h1, h2]
  · intro feed s1 stamped s2 err s3 h1 h2 h3
    simp only [scrapeFeeds, h1, h2, h3]
  · rintro ⟨e, he, hc⟩
    rcases h1 : W.GetNextFeedToFetch s with ⟨err | feed, s1⟩
    · simp only [scrapeFeeds, h1, List.mem_cons, List.mem_singleton, List.not_mem_nil,
        or_false] at he
      rcases he with rfl | rfl <;> cases hc
    · rcases h2 : W.MarkFeedFetched feed.ID s1 with ⟨err | stamped, s2⟩
      · simp only [scrapeFeeds, h1, h2, List.mem_cons, List.mem_singleton, List.not_mem_nil,
          or_false] at he
        rcases he with rfl | rfl | rfl <;> cases hc
      · rcases h3 : fetchFeed W feed.Url s2 with ⟨err | doc, s3⟩
        · simp only [scrapeFeeds, h1, h2, h3, List.mem_cons, List.mem_singleton,
            List.not_mem_nil, or_false] at he
          rcases he with rfl | rfl | rfl | rfl <;> cases hc
        · exact ⟨feed, s1, stamped, s2, doc, s3, rfl, h2, h3⟩

/-- Witness for C6: the store without feeds (no stamp, no fetch, no post);
the feed whose source answers 404 (stamped, fetched, no post); and a cycle
that does insert, where all three steps succeeded. -/
theorem scrapeFeeds_failure_ends_cycle_witness :
    scrapeFeeds sampleWorld emptyStore = (emptyStore, [Event.GetNextFeedToFetch false,
        Event.Printf "Error retrieving next feed to fetch: sql: no rows in result set\n"]) ∧
    scrapeFeeds sampleWorld goneStore = ((Mem.MarkFeedFetched 8 goneStore).2,
      [Event.GetNextFeedToFetch true, Event.MarkFeedFetched 8 true,
        Event.fetchFeed "https://gone.example/rss" false,
        Event.Printf "Error fetching feed: error fetching feed: received status code 404\n"]) ∧
    ∃ feed s1 stamped s2 doc s3, sampleWorld.GetNextFeedToFetch freshStore = (.ok feed, s1) ∧
        sampleWorld.MarkFeedFetched feed.ID s1 = (.ok stamped, s2) ∧
        fetchFeed sampleWorld feed.Url s2 = (.ok doc, s3) :=
  ⟨(scrapeFeeds_failure_ends_cycle sampleWorld emptyStore).1
      (.plain "sql: no rows in result set") emptyStore (by decide),
    (scrapeFeeds_failure_ends_cycle sampleWorld goneStore).2.2.1 goneFeed goneStore
      (stampedAt 1000 goneFeed) (Mem.MarkFeedFetched 8 goneStore).2
      (.plain "error fetching feed: received status code 404")
      (Mem.MarkFeedFetched 8 goneStore).2 (by decide) (by decide) (by decide),
    (scrapeFeeds_failure_ends_cycle sampleWorld freshStore).2.2.2
      ⟨Event.CreatePost
        { ID := 100, CreatedAt := { sec := 1000 }, UpdatedAt := { sec := 1001 }, FeedID := 7,
          Title := "one", Description := { String := "first", Valid := true },
          Url := "https://blog.example/1", PublishedAt := { sec := 63271836245 } } true,
        by decide, rfl⟩⟩

/-! ## `fetchFeed` -/

theorem startsWith_append (p x : String) : startsWith p (p ++ x) = true := by
  simp [startsWith, String.data_append]

theorem startsWith_append_false (p q x : String) (n : Nat) (hp : n ≤ p.data.length)
    (hq : n ≤ q.data.length) (hne : p.data.take n ≠ q.data.take n) :
    startsWith p (q ++ x) = false := by
  cases h : startsWith p (q ++ x) with
  | false => rfl
  | true =>
    exfalso
    apply hne
    simp only [startsWith, String.data_append, List.isPrefixOf_iff_prefix] at h
    obtain ⟨t, ht⟩ := h
    have h1 : (p.data ++ t).take n = p.data.take n := List.take_append_of_le_length hp
    have h2 : (q.data ++ x.data).take n = q.data.take n := List.take_append_of_le_length hq
    rw [← h1, ht, h2]

theorem assignItem_at (done todo : List RSSItem) (x : RSSItem) (g : RSSItem → RSSItem) :
    assignItem (done ++ x :: todo) done.length g = done ++ g x :: todo := by
  induction done with
  | nil => simp [assignItem]
  | cons d done ih =>
    simp only [assignItem, List.cons_append, List.length_cons, List.getElem?_cons_succ,
      List.set_cons_succ] at ih ⊢
    split
    · rename_i y hy
      rw [hy] at ih
      simp only at ih
      rw [ih]
    · rename_i hy
      simp at hy

theorem unescapeLoop_eq (unescape : String → String) (todo : List RSSItem) :
    ∀ done : List RSSItem,
      unescapeLoop unescape todo.length done.length (done ++ todo)
        = done ++ todo.map (unescapeItem unescape) := by
  induction todo with
  | nil => intro done; simp [unescapeLoop]
  | cons x todo ih =>
    intro done
    have hx : (done ++ x :: todo)[done.length]? = some x := by
      rw [List.getElem?_append_right (Nat.le_refl _)]
      simp
    simp only [List.length_cons, unescapeLoop, hx, assignItem_at]
    have := ih (done ++ [unescapeItem unescape x])
    simp only [List.length_append, List.length_singleton, List.append_assoc,
      List.singleton_append] at this
    simpa [unescapeItem] using this

theorem unescapeFeed_eq (unescape : String → String) (feed : RSSFeed) :
    unescapeFeed unescape feed =
      { Channel :=
        { Title := unescape feed.Channel.Title, Link := unescape feed.Channel.Link,
          Description := unescape feed.Channel.Description,
          Item := feed.Channel.Item.map (unescapeItem unescape) } } := by
  have := unescapeLoop_eq unescape feed.Channel.Item []
  simp only [List.length_nil, List.nil_append] at this
  simp only [unescapeFeed, this]

theorem stageOf_request (e : GoError) :
    stageOf (errorfW "error creating request: " e) = some .request := by
  simp [stageOf, errorfW, startsWith_append]

theorem stageOf_transport (e : GoError) :
    stageOf (errorfW "error fetching feed: " e) = some .transport := by
  have h1 := startsWith_append_false "error creating request: " "error fetching feed: "
    e.Error 7 (by decide) (by decide) (by decide)
  simp [stageOf, errorfW, startsWith_append, h1]

theorem stageOf_status (code : Int) :
    stageOf (.plain ("error fetching feed: received status code " ++ toString code))
      = some .status := by
  simp [stageOf, startsWith_append]

theorem stageOf_read (e : GoError) :
    stageOf (errorfW "error reading response body: " e) = some .read := by
  have h1 := startsWith_append_false "error creating request: "
    "error reading response body: " e.Error 7 (by decide) (by decide) (by decide)
  have h2 := startsWith_append_false "error fetching feed: "
    "error reading response body: " e.Error 7 (by decide) (by decide) (by decide)
  simp [stageOf, errorfW, startsWith_append, h1, h2]

theorem stageOf_decode (e : GoError) :
    stageOf (errorfW "error unmarshalling XML: " e) = some .decode := by
  have h1 := startsWith_append_false "error creating request: "
    "error unmarshalling XML: " e.Error 7 (by decide) (by decide) (by decide)
  have h2 := startsWith_append_false "error fetching feed: "
    "error unmarshalling XML: " e.Error 7 (by decide) (by decide) (by decide)
  have h3 := startsWith_append_false "error reading response body: "
    "error unmarshalling XML: " e.Error 7 (by decide) (by decide) (by decide)
  simp [stageOf, errorfW, startsWith_append, h1, h2, h3]

/-- C7: `fetchFeed` returns a document exactly when the request could be
built, the transport succeeded, the status code is 200, the body could be
read and the body parsed as XML.  Otherwise it returns an error (and so no
document), and the failing stage can be read off the error value: the stage
`stageOf` finds in it is the request stage exactly when building the request
failed, the transport stage exactly when `Do` failed, the status stage
exactly when the status code is not 200, the read stage exactly when reading
the body failed, and the decode stage exactly when the XML did not parse. -/
theorem fetchFeed_document_iff {σ : Type} (W : World σ) (url : String) (s : σ) :
    ((∃ doc, (fetchFeed W url s).1 = .ok doc) ↔
      ∃ req resp s1 data feed, W.NewRequestGet url = .ok req ∧
        W.Do (req.setHeader "User-Agent" "agGrOgator") s = (.ok resp, s1) ∧
        resp.StatusCode = 200 ∧ resp.Body = .ok data ∧ W.xmlUnmarshal data = .ok feed) ∧
    (∀ err, (fetchFeed W url s).1 = .error err →
      (∃ stage, stageOf err = some stage) ∧
      (stageOf err = some .request ↔ ∃ e, W.NewRequestGet url = .error e) ∧
      (stageOf err = some .transport ↔ ∃ req e s1, W.NewRequestGet url = .ok req ∧
        W.Do (req.setHeader "User-Agent" "agGrOgator") s = (.error e, s1)) ∧
      (stageOf err = some .status ↔ ∃ req resp s1, W.NewRequestGet url = .ok req ∧
        W.Do (req.setHeader "User-Agent" "agGrOgator") s = (.ok resp, s1) ∧
        resp.StatusCode ≠ 200) ∧
      (stageOf err = some .read ↔ ∃ req resp s1 e, W.NewRequestGet url = .ok req ∧
        W.Do (req.setHeader "User-Agent" "agGrOgator") s = (.ok resp, s1) ∧
        resp.StatusCode = 200 ∧ resp.Body = .error e) ∧
      (stageOf err = some .decode ↔ ∃ req resp s1 data e, W.NewRequestGet url = .ok req ∧
        W.Do (req.setHeader "User-Agent" "agGrOgator") s = (.ok resp, s1) ∧
        resp.StatusCode = 200 ∧ resp.Body = .ok data ∧ W.xmlUnmarshal data = .error e)) := by
  rcases hreq : W.NewRequestGet url with e | req
  · simp [fetchFeed, hreq, stageOf_request]
  · rcases hdo : W.Do (req.setHeader "User-Agent" "agGrOgator") s with ⟨e | resp, s1⟩
    · simp [fetchFeed, hreq, hdo, stageOf_transport]
    · by_cases hst : resp.StatusCode = 200
      · rcases hbody : resp.Body with e | data
        · simp [fetchFeed, hreq, hdo, hst, hbody, stageOf_read]
        · rcases hxml : W.xmlUnmarshal data with e | feed
          · simp [fetchFeed, hreq, hdo, hst, hbody, hxml, stageOf_decode]
          · simp [fetchFeed, hreq, hdo, hst, hbody, hxml]
      · simp [fetchFeed, hreq, hdo, hst, stageOf_status]

/-- Witness for C7 on the sample network: the blog URL yields a document;
status 404 and status 201 yield the status error, a body cut short the read
error, a body that is no feed the decode error, an unknown host the
transport error, and a URL with a control character the request error. -/
theorem fetchFeed_document_iff_witness :
    (∃ doc, (fetchFeed sampleWorld "https://blog.example/rss" freshStore).1 = .ok doc) ∧
    (fetchFeed sampleWorld "https://gone.example/rss" freshStore).1.toOption.isNone ∧
    ((fetchFeed sampleWorld "https://gone.example/rss" freshStore).1
        = .error (.plain "error fetching feed: received status code 404") ∧
      stageOf (.plain "error fetching feed: received status code 404") = some .status) ∧
    ((fetchFeed sampleWorld "https://made.example/rss" freshStore).1
        = .error (.plain "error fetching feed: received status code 201") ∧
      stageOf (.plain "error fetching feed: received status code 201") = some .status) ∧
    (fetchFeed sampleWorld "https://cut.example/rss" freshStore).1.toOption.isNone ∧
    (fetchFeed sampleWorld "https://text.example/rss" freshStore).1.toOption.isNone ∧
    (fetchFeed sampleWorld "https://nowhere.example/rss" freshStore).1.toOption.isNone ∧
    (fetchFeed sampleWorld "https://blog.example/\n" freshStore).1.toOption.isNone :=
  ⟨(fetchFeed_document_iff sampleWorld "https://blog.example/rss" freshStore).1.2
      ⟨{ Method := "GET", URL := "https://blog.example/rss" },
        { StatusCode := 200, Body := .ok "<rss>blog</rss>" }, freshStore, "<rss>blog</rss>",
        sampleDoc, by decide, by decide, by decide, by decide, by decide⟩,
    by decide,
    ⟨by decide,
      ((fetchFeed_document_iff sampleWorld "https://gone.example/rss" freshStore).2
        (.plain "error fetching feed: received status code 404") (by decide)).2.2.2.1.2
        ⟨{ Method := "GET", URL := "https://gone.example/rss" },
          { StatusCode := 404, Body := .ok "not found" }, freshStore,
          by decide, by decide, by decide⟩⟩,
    ⟨by decide, by decide⟩, by decide, by decide, by decide, by decide⟩

/-- C8: when the fetched body parses, `fetchFeed` returns the parsed document
with one pass of `html.UnescapeString` over the channel's title, link and
description and over every item's title, link and description (and date
string): the items are the parsed items in the same number and order, each
field is the decoded parsed field, decoded once and not again. -/
theorem fetchFeed_decodes_once {σ : Type} (W : World σ) (url : String) (s s1 : σ)
    (req : Request) (resp : Response) (data : String) (parsed : RSSFeed)
    (hreq : W.NewRequestGet url = .ok req)
    (hdo : W.Do (req.setHeader "User-Agent" "agGrOgator") s = (.ok resp, s1))
    (hstatus : resp.StatusCode = 200) (hbody : resp.Body = .ok data)
    (hxml : W.xmlUnmarshal data = .ok parsed) :
    ∃ doc : RSSFeed, fetchFeed W url s = (.ok doc, s1) ∧
      doc.Channel.Title = W.UnescapeString parsed.Channel.Title ∧
      doc.Channel.Link = W.UnescapeString parsed.Channel.Link ∧
      doc.Channel.Description = W.UnescapeString parsed.Channel.Description ∧
      doc.Channel.Item.length = parsed.Channel.Item.length ∧
      (∀ (i : Nat) (item : RSSItem), parsed.Channel.Item[i]? = some item →
        ∃ out : RSSItem, doc.Channel.Item[i]? = some out ∧
          out.Title = W.UnescapeString item.Title ∧
          out.Link = W.UnescapeString item.Link ∧
          out.Description = W.UnescapeString item.Description ∧
          out.PubDate = W.UnescapeString item.PubDate) := by
  refine ⟨unescapeFeed W.UnescapeString parsed, ?_, ?_, ?_, ?_, ?_, ?_⟩
  · simp [fetchFeed, hreq, hdo, hstatus, hbody, hxml]
  · rw [unescapeFeed_eq]
  · rw [unescapeFeed_eq]
  · rw [unescapeFeed_eq]
  · rw [unescapeFeed_eq]; simp
  · intro i item hi
    rw [unescapeFeed_eq]
    refine ⟨unescapeItem W.UnescapeString item, ?_, rfl, rfl, rfl, rfl⟩
    simp [List.getElem?_map, hi]

/-- Witness for C8: the sample document has the channel title "A &amp; B"
and the channel description "&amp;amp;"; they come back as "A & B" and as
"&amp;" (one level decoded, not two). -/
theorem fetchFeed_decodes_once_witness :
    sampleWorld.UnescapeString "A &amp; B" = "A & B" ∧
    sampleWorld.UnescapeString "&amp;amp;" = "&amp;" ∧
    sampleWorld.UnescapeString "&amp;" = "&" ∧
    ∃ doc : RSSFeed, fetchFeed sampleWorld "https://blog.example/rss" freshStore
        = (.ok doc, freshStore) ∧
      doc.Channel.Title = sampleWorld.UnescapeString sampleDoc.Channel.Title ∧
      doc.Channel.Link = sampleWorld.UnescapeString sampleDoc.Channel.Link ∧
      doc.Channel.Description = sampleWorld.UnescapeString sampleDoc.Channel.Description ∧
      doc.Channel.Item.length = sampleDoc.Channel.Item.length ∧
      (∀ (i : Nat) (item : RSSItem), sampleDoc.Channel.Item[i]? = some item →
        ∃ out : RSSItem, doc.Channel.Item[i]? = some out ∧
          out.Title = sampleWorld.UnescapeString item.Title ∧
          out.Link = sampleWorld.UnescapeString item.Link ∧
          out.Description = sampleWorld.UnescapeString item.Description ∧
          out.PubDate = sampleWorld.UnescapeString item.PubDate) :=
  ⟨by decide, by decide, by decide,
    fetchFeed_decodes_once sampleWorld "https://blog.example/rss" freshStore freshStore
      { Method := "GET", URL := "https://blog.example/rss" }
      { StatusCode := 200, Body := .ok "<rss>blog</rss>" } "<rss>blog</rss>" sampleDoc
      (by decide) (by decide) (by decide) (by decide) (by decide)⟩

/-! ## `handlerAgg` -/

theorem scrapeFeeds_no_loop_marks {σ : Type} (W : World σ) (s : σ) :
    ∀ e ∈ (scrapeFeeds W s).2, e.isLoopMark = false := by
  intro e he
  rcases h1 : W.GetNextFeedToFetch s with ⟨err | feed, s1⟩
  · simp only [scrapeFeeds, h1, List.mem_cons, List.mem_singleton, List.not_mem_nil,
      or_false] at he
    rcases he with rfl | rfl <;> rfl
  · rcases h2 : W.MarkFeedFetched feed.ID s1 with ⟨err | stamped, s2⟩
    · simp only [scrapeFeeds, h1, h2, List.mem_cons, List.mem_singleton, List.not_mem_nil,
        or_false] at he
      rcases he with rfl | rfl | rfl <;> rfl
    · rcases h3 : fetchFeed W feed.Url s2 with ⟨err | doc, s3⟩
      · simp only [scrapeFeeds, h1, h2, h3, List.mem_cons, List.mem_singleton,
          List.not_mem_nil, or_false] at he
        rcases he with rfl | rfl | rfl | rfl <;> rfl
      · rw [scrapeFeeds_ok W s s1 s2 s3 feed stamped doc h1 h2 h3] at he
        simp only [List.mem_append, List.mem_cons, List.mem_singleton, List.not_mem_nil,
          or_false] at he
        rcases he with ((rfl | rfl | rfl) | he) | rfl
        · rfl
        · rfl
        · rfl
        · have := scrapeItems_events W feed doc.Channel.Item s3 e he
          cases e <;> simp_all [Event.isItemEvent, Event.isLoopMark]
        · rfl

theorem count_loop_mark_zero (m : Event) (hm : m.isLoopMark = true) (evs : List Event)
    (h : ∀ e ∈ evs, e.isLoopMark = false) : evs.count m = 0 := by
  rw [List.count_eq_zero]
  intro hmem
  have := h m hmem
  rw [hm] at this
  cases this

theorem prefix_append_cases {α : Type} (t xs ys : List α) (h : t <+: xs ++ ys) :
    t <+: xs ∨ ∃ r, t = xs ++ r ∧ r <+: ys := by
  rcases List.prefix_or_prefix_of_prefix h (List.prefix_append xs ys) with h1 | h1
  · exact Or.inl h1
  · obtain ⟨r, rfl⟩ := h1
    exact Or.inr ⟨r, rfl, (List.prefix_append_right_inj xs).1 h⟩

theorem prefix_no_loop_marks (p evs : List Event) (hp : p <+: evs)
    (h : ∀ e ∈ evs, e.isLoopMark = false) : ∀ e ∈ p, e.isLoopMark = false :=
  fun e he => h e (hp.subset he)

theorem aggLoop_counts {σ : Type} (W : World σ) :
    ∀ (n : Nat) (s : σ),
      (aggLoop W n s).2.count Event.cycleBegin = n + 1 ∧
      (aggLoop W n s).2.count Event.cycleEnd = n + 1 ∧
      (aggLoop W n s).2.count Event.tick = n := by
  intro n
  induction n with
  | zero =>
    intro s
    have hb := count_loop_mark_zero Event.cycleBegin rfl _ (scrapeFeeds_no_loop_marks W s)
    have he := count_loop_mark_zero Event.cycleEnd rfl _ (scrapeFeeds_no_loop_marks W s)
    have ht := count_loop_mark_zero Event.tick rfl _ (scrapeFeeds_no_loop_marks W s)
    simp [aggLoop, List.count_cons, List.count_append, hb, he, ht]
  | succ n ih =>
    intro s
    have hb := count_loop_mark_zero Event.cycleBegin rfl _ (scrapeFeeds_no_loop_marks W s)
    have he := count_loop_mark_zero Event.cycleEnd rfl _ (scrapeFeeds_no_loop_marks W s)
    have ht := count_loop_mark_zero Event.tick rfl _ (scrapeFeeds_no_loop_marks W s)
    obtain ⟨ib, ie, it⟩ := ih (scrapeFeeds W s).1
    simp [aggLoop, List.count_cons, List.count_append, hb, he, ht, ib, ie, it]

theorem prefix_cycle_counts (evs p : List Event) (h : ∀ e ∈ evs, e.isLoopMark = false)
    (hp : p <+: Event.cycleBegin :: evs) :
    p.count Event.tick = 0 ∧ p.count Event.cycleEnd = 0 ∧ p.count Event.cycleBegin ≤ 1 := by
  rcases List.prefix_cons_iff.1 hp with rfl | ⟨t, rfl, ht⟩
  · simp
  · have hb := count_loop_mark_zero Event.cycleBegin rfl t (prefix_no_loop_marks t evs ht h)
    have he := count_loop_mark_zero Event.cycleEnd rfl t (prefix_no_loop_marks t evs ht h)
    have hk := count_loop_mark_zero Event.tick rfl t (prefix_no_loop_marks t evs ht h)
    simp [List.count_cons, hb, he, hk]

theorem aggLoop_prefixes {σ : Type} (W : World σ) :
    ∀ (n : Nat) (s : σ) (p : List Event), p <+: (aggLoop W n s).2 →
      p.count Event.tick ≤ p.count Event.cycleEnd ∧
      p.count Event.cycleEnd ≤ p.count Event.cycleBegin ∧
      p.count Event.cycleBegin ≤ p.count Event.tick + 1 := by
  intro n
  induction n with
  | zero =>
    intro s p hp
    have hno := scrapeFeeds_no_loop_marks W s
    have hb := count_loop_mark_zero Event.cycleBegin rfl _ hno
    have he := count_loop_mark_zero Event.cycleEnd rfl _ hno
    have hk := count_loop_mark_zero Event.tick rfl _ hno
    simp only [aggLoop] at hp
    rcases prefix_append_cases p _ _ hp with h1 | ⟨r, rfl, hr⟩
    · have := prefix_cycle_counts _ p hno h1
      omega
    · rcases List.prefix_cons_iff.1 hr with rfl | ⟨t, rfl, ht⟩
      · simp [List.count_cons, hb, he, hk]
      · rw [List.prefix_nil] at ht
        subst ht
        simp [List.count_cons, List.count_append, hb, he, hk]
  | succ n ih =>
    intro s p hp
    have hno := scrapeFeeds_no_loop_marks W s
    have hb := count_loop_mark_zero Event.cycleBegin rfl _ hno
    have he := count_loop_mark_zero Event.cycleEnd rfl _ hno
    have hk := count_loop_mark_zero Event.tick rfl _ hno
    simp only [aggLoop] at hp
    rcases prefix_append_cases p _ _ hp with h1 | ⟨r, rfl, hr⟩
    · rcases prefix_append_cases p _ _ h1 with h2 | ⟨q, rfl, hq⟩
      · have := prefix_cycle_counts _ p hno h2
        omega
      · rcases List.prefix_cons_iff.1 hq with rfl | ⟨t, rfl, ht⟩
        · simp [List.count_cons, hb, he, hk]
        · rcases List.prefix_cons_iff.1 ht with rfl | ⟨u, rfl, hu⟩
          · simp [List.count_cons, List.count_append, hb, he, hk]
          · rw [List.prefix_nil] at hu
            subst hu
            simp [List.count_cons, List.count_append, hb, he, hk]
    · obtain ⟨i1, i2, i3⟩ := ih (scrapeFeeds W s).1 r hr
      simp only [List.count_cons, List.count_append, List.count_nil, hb, he, hk]
      simp
      omega

theorem aggLoop_extends {σ : Type} (W : World σ) :
    ∀ (n : Nat) (s : σ), (aggLoop W n s).2 <+: (aggLoop W (n + 1) s).2 := by
  intro n
  induction n with
  | zero =>
    intro s
    simp only [aggLoop]
    exact ⟨Event.tick :: Event.cycleBegin ::
      ((scrapeFeeds W (scrapeFeeds W s).1).2 ++ [Event.cycleEnd]), by simp⟩
  | succ n ih =>
    intro s
    have := ih (scrapeFeeds W s).1
    rw [aggLoop, aggLoop]
    exact (List.prefix_append_right_inj _).2 this

theorem stateAfterCycles_succ {σ : Type} (W : World σ) (k : Nat) (s : σ) :
    stateAfterCycles W (k + 1) s = stateAfterCycles W k (scrapeFeeds W s).1 := by
  simp [stateAfterCycles, Function.iterate_succ_apply]

theorem aggLoop_succ {σ : Type} (W : World σ) (n : Nat) (s : σ) :
    aggLoop W (n + 1) s =
      ((aggLoop W n (scrapeFeeds W s).1).1,
        Event.cycleBegin :: (scrapeFeeds W s).2 ++ [Event.cycleEnd, Event.tick]
          ++ (aggLoop W n (scrapeFeeds W s).1).2) := rfl

/-- The loop after `n` ticks, written out: `n` rounds of a cycle and a tick,
then one more cycle, each cycle being `scrapeFeeds` on the state the cycle
before it left. -/
theorem aggLoop_eq {σ : Type} (W : World σ) :
    ∀ (n : Nat) (s : σ), aggLoop W n s =
      (stateAfterCycles W (n + 1) s,
        ((List.range n).map (fun k =>
            Event.cycleBegin :: (scrapeFeeds W (stateAfterCycles W k s)).2
              ++ [Event.cycleEnd, Event.tick])).flatten
          ++ (Event.cycleBegin :: (scrapeFeeds W (stateAfterCycles W n s)).2
              ++ [Event.cycleEnd])) := by
  intro n
  induction n with
  | zero =>
    intro s
    simp [aggLoop, stateAfterCycles]
  | succ n ih =>
    intro s
    rw [aggLoop_succ, ih (scrapeFeeds W s).1, List.range_succ_eq_map]
    simp only [List.map_cons, List.map_map, List.flatten_cons, ← stateAfterCycles_succ]
    simp [stateAfterCycles, Function.comp_def, Function.iterate_succ_apply]

/-- What `handlerAgg` does with an interval it cannot use: an argument that
does not parse as a duration is answered by a returned error, with nothing
called or printed and the loop not entered; an argument that parses to a
non-positive duration gets past the checks of `handlerAgg`, and the call
`time.NewTicker` panics (again nothing is called or printed and the loop is
not entered). -/
theorem handlerAgg_bad_interval {σ : Type} (W : World σ) (ticks : Nat) (s : σ)
    (name arg : String) :
    (∀ e, W.ParseDuration arg = .error e →
      (∃ err, handlerAgg W ticks s { name := name, args := [arg] } = .returned err) ∧
      (handlerAgg W ticks s { name := name, args := [arg] }).trace = [] ∧
      (handlerAgg W ticks s { name := name, args := [arg] }).inLoop = false) ∧
    (∀ d, W.ParseDuration arg = .ok d → d ≤ 0 →
      (handlerAgg W ticks s { name := name, args := [arg] }).trace = [] ∧
      (handlerAgg W ticks s { name := name, args := [arg] }).inLoop = false ∧
      (arg.utf8ByteSize ≠ 0 →
        handlerAgg W ticks s { name := name, args := [arg] }
          = .panicked "non-positive interval for NewTicker")) := by
  constructor
  · intro e he
    by_cases h0 : arg.utf8ByteSize = 0
    · simp [handlerAgg, h0, AggResult.trace, AggResult.inLoop]
    · simp [handlerAgg, h0, he, AggResult.trace, AggResult.inLoop]
  · intro d hd hle
    by_cases h0 : arg.utf8ByteSize = 0
    · simp [handlerAgg, h0, AggResult.trace, AggResult.inLoop]
    · simp [handlerAgg, h0, hd, NewTicker, hle, AggResult.trace, AggResult.inLoop]

/-- C5: the code at the arguments "0s" and "-5s", which parse to a
non-positive duration: `handlerAgg` returns no error, it panics in
`time.NewTicker` (no fetch cycle has run and the loop is not entered).  The
claim asks for an error there, as `handlerAgg` gives for "abc", for an empty
argument and for a wrong number of arguments. -/
theorem handlerAgg_nonpositive_panics :
    sampleWorld.ParseDuration "0s" = .ok 0 ∧
    (handlerAgg sampleWorld 0 freshStore { name := "agg", args := ["0s"] }).returnedError
      = none ∧
    (handlerAgg sampleWorld 0 freshStore { name := "agg", args := ["0s"] }).panicValue
      = some "non-positive interval for NewTicker" ∧
    (handlerAgg sampleWorld 0 freshStore { name := "agg", args := ["0s"] }).trace = [] ∧
    sampleWorld.ParseDuration "-5s" = .ok (-5000000000) ∧
    (handlerAgg sampleWorld 0 freshStore { name := "agg", args := ["-5s"] }).returnedError
      = none ∧
    (handlerAgg sampleWorld 0 freshStore { name := "agg", args := ["-5s"] }).panicValue
      = some "non-positive interval for NewTicker" ∧
    (handlerAgg sampleWorld 0 freshStore { name := "agg", args := ["-5s"] }).trace = [] ∧
    (handlerAgg sampleWorld 0 freshStore { name := "agg", args := ["abc"] }).returnedError
      = some (errorfW "invalid time duration: " (.plain "time: invalid duration abc")) ∧
    (handlerAgg sampleWorld 0 freshStore { name := "agg", args := [""] }).returnedError
      = some (.plain "feed URL cannot be empty") ∧
    (handlerAgg sampleWorld 0 freshStore { name := "agg", args := [] }).returnedError
      = some (.plain "feed URL must be the only field and is required") := by
  decide

/-- C9: for an argument that parses to a positive duration, `handlerAgg` is in
its loop whatever the number of ticks its ticker has delivered and whatever
the cycles did: it has neither returned nor panicked.  After `ticks` ticks
its trace is exactly `ticks` rounds of one `scrapeFeeds` cycle followed by
one consumed tick, and then one more cycle: the first cycle runs on the
initial state before any tick is consumed, every further cycle runs
`scrapeFeeds` on the state the cycle before it returned, and the state
reached is the one after `ticks + 1` cycles.  So `ticks + 1` cycles have
begun and ended; in every prefix of the trace the ticks consumed, the cycles
ended and the cycles begun satisfy ticks ≤ ended ≤ begun ≤ ticks + 1, so a
cycle begins only when all earlier ones have returned and each further cycle
takes one tick; and one more tick extends the trace. -/
theorem handlerAgg_runs_one_cycle_per_tick {σ : Type} (W : World σ) (ticks : Nat) (s : σ)
    (name arg : String) (d : Int) (harg : arg.utf8ByteSize ≠ 0)
    (hd : W.ParseDuration arg = .ok d) (hpos : 0 < d) :
    ∃ (s1 : σ) (trace : List Event),
      handlerAgg W ticks s { name := name, args := [arg] } = .waiting s1 trace ∧
      s1 = stateAfterCycles W (ticks + 1) s ∧
      trace =
        ((List.range ticks).map (fun k =>
            Event.cycleBegin :: (scrapeFeeds W (stateAfterCycles W k s)).2
              ++ [Event.cycleEnd, Event.tick])).flatten
          ++ (Event.cycleBegin :: (scrapeFeeds W (stateAfterCycles W ticks s)).2
              ++ [Event.cycleEnd]) ∧
      (∃ rest, trace = Event.cycleBegin :: (scrapeFeeds W s).2 ++ Event.cycleEnd :: rest) ∧
      trace.count Event.cycleBegin = ticks + 1 ∧
      trace.count Event.cycleEnd = ticks + 1 ∧
      trace.count Event.tick = ticks ∧
      (∀ p, p <+: trace →
        p.count Event.tick ≤ p.count Event.cycleEnd ∧
        p.count Event.cycleEnd ≤ p.count Event.cycleBegin ∧
        p.count Event.cycleBegin ≤ p.count Event.tick + 1) ∧
      trace <+: (handlerAgg W (ticks + 1) s { name := name, args := [arg] }).trace := by
  have hnt : ¬ d ≤ 0 := by omega
  have hrun : ∀ n, handlerAgg W n s { name := name, args := [arg] }
      = .waiting (aggLoop W n s).1 (aggLoop W n s).2 := by
    intro n
    simp [handlerAgg, harg, hd, NewTicker, hnt]
  obtain ⟨hb, he, hk⟩ := aggLoop_counts W ticks s
  refine ⟨(aggLoop W ticks s).1, (aggLoop W ticks s).2, hrun ticks, ?_, ?_, ?_, hb, he, hk,
    aggLoop_prefixes W ticks s, ?_⟩
  · rw [aggLoop_eq]
  · rw [aggLoop_eq]
  · cases ticks with
    | zero => exact ⟨[], by simp [aggLoop]⟩
    | succ n => exact ⟨Event.tick :: (aggLoop W n (scrapeFeeds W s).1).2, by simp [aggLoop]⟩
  · rw [hrun (ticks + 1)]
    exact aggLoop_extends W ticks s

/-- Witness for C9: "1m" on the sample store, after two ticks: three cycles,
the second and third on the store the cycle before left (the feed stamped
again, the three posts of the first cycle refused as duplicates). -/
theorem handlerAgg_runs_one_cycle_per_tick_witness :
    sampleWorld.ParseDuration "1m" = .ok 60000000000 ∧
    (handlerAgg sampleWorld 2 freshStore { name := "agg", args := ["1m"] }).trace
      = Event.cycleBegin :: (scrapeFeeds sampleWorld freshStore).2
        ++ [Event.cycleEnd, Event.tick]
        ++ Event.cycleBegin
          :: (scrapeFeeds sampleWorld (scrapeFeeds sampleWorld freshStore).1).2
        ++ [Event.cycleEnd, Event.tick]
        ++ Event.cycleBegin
          :: (scrapeFeeds sampleWorld
                (scrapeFeeds sampleWorld (scrapeFeeds sampleWorld freshStore).1).1).2
        ++ [Event.cycleEnd] ∧
    newPosts (scrapeFeeds sampleWorld (scrapeFeeds sampleWorld freshStore).1).2 = 0 ∧
    failedPosts (scrapeFeeds sampleWorld (scrapeFeeds sampleWorld freshStore).1).2 = 3 ∧
    ∃ (s1 : Mem) (trace : List Event),
      handlerAgg sampleWorld 2 freshStore { name := "agg", args := ["1m"] }
        = .waiting s1 trace ∧
      s1 = stateAfterCycles sampleWorld (2 + 1) freshStore ∧
      trace =
        ((List.range 2).map (fun k =>
            Event.cycleBegin :: (scrapeFeeds sampleWorld
                (stateAfterCycles sampleWorld k freshStore)).2
              ++ [Event.cycleEnd, Event.tick])).flatten
          ++ (Event.cycleBegin :: (scrapeFeeds sampleWorld
                (stateAfterCycles sampleWorld 2 freshStore)).2
              ++ [Event.cycleEnd]) ∧
      (∃ rest, trace
        = Event.cycleBegin :: (scrapeFeeds sampleWorld freshStore).2 ++ Event.cycleEnd :: rest) ∧
      trace.count Event.cycleBegin = 2 + 1 ∧
      trace.count Event.cycleEnd = 2 + 1 ∧
      trace.count Event.tick = 2 ∧
      (∀ p, p <+: trace →
        p.count Event.tick ≤ p.count Event.cycleEnd ∧
        p.count Event.cycleEnd ≤ p.count Event.cycleBegin ∧
        p.count Event.cycleBegin ≤ p.count Event.tick + 1) ∧
      trace <+: (handlerAgg sampleWorld (2 + 1) freshStore
        { name := "agg", args := ["1m"] }).trace :=
  ⟨by decide, by decide, by decide, by decide,
    handlerAgg_runs_one_cycle_per_tick sampleWorld 2 freshStore "agg" "1m" 60000000000
      (by decide) (by decide) (by decide)⟩

/-! ## `handlerBrowse` -/

theorem queriedLimits_printPosts {σ : Type} (W : World σ) (posts : List Post) :
    queriedLimits (printPosts W posts) = [] := by
  induction posts with
  | nil => rfl
  | cons post rest ih => simp [printPosts, queriedLimits, ih]

theorem handlerBrowse_query {σ : Type} (W : World σ) (s : σ) (cmd : command) (user : User)
    (limit : Int) (h : browseLimit W cmd = .ok limit) :
    queriedLimits (handlerBrowse W s cmd user).2.2 = [int32 limit] := by
  rcases hq : W.GetPostsForUser { UserID := user.ID, Limit := int32 limit } s
    with ⟨err | posts, s1⟩
  · simp [handlerBrowse, h, hq, queriedLimits]
  · by_cases hl : posts.length = 0
    · simp [handlerBrowse, h, hq, hl, queriedLimits]
    · simp [handlerBrowse, h, hq, hl, queriedLimits, queriedLimits_printPosts]

theorem handlerBrowse_run {σ : Type} (W : World σ) (s : σ) (cmd : command) (user : User)
    (limit : Int) (h : browseLimit W cmd = .ok limit) :
    (∀ err s1, W.GetPostsForUser { UserID := user.ID, Limit := int32 limit } s
        = (.error err, s1) →
      handlerBrowse W s cmd user
        = (some (errorfW "error retrieving posts for user: " err), s1,
            [Event.GetPostsForUser { UserID := user.ID, Limit := int32 limit } false])) ∧
    (∀ posts s1, W.GetPostsForUser { UserID := user.ID, Limit := int32 limit } s
        = (.ok posts, s1) →
      handlerBrowse W s cmd user
        = (none, s1, Event.GetPostsForUser { UserID := user.ID, Limit := int32 limit } true
            :: (if posts.length = 0 then [Event.Printf "No posts found\n"]
                else printPosts W posts))) := by
  constructor
  · intro err s1 hq
    simp [handlerBrowse, h, hq]
  · intro posts s1 hq
    by_cases hl : posts.length = 0
    · simp [handlerBrowse, h, hq, hl]
    · simp [handlerBrowse, h, hq, hl]

/-- C10: `handlerBrowse` makes its one store query with limit 2 for every
argument list whose length is not 1.  For a single argument it returns an
error without querying the store (the state untouched) exactly when
`strconv.Atoi` rejects the argument; when `Atoi` accepts it, the one query
carries the parsed integer converted to `int32`: the value congruent to it
modulo 2^32 in the signed 32-bit range, which differs from the parsed integer
whenever that is above 2^31-1 and is the parsed integer itself for zero and
the negative values down to -2^31 (no value is rejected for its sign or
size).  In both querying cases the query is `GetPostsForUser` applied to the
user's ID and that limit on the incoming state: the handler ends in the state
the query returned, with the query's error wrapped when it failed, and with
no error and the posts it returned printed when it succeeded. -/
theorem handlerBrowse_limit {σ : Type} (W : World σ) (s : σ) (cmd : command) (user : User) :
    (cmd.args.length ≠ 1 → queriedLimits (handlerBrowse W s cmd user).2.2 = [2]) ∧
    (∀ arg, cmd.args = [arg] →
      (((∃ err, (handlerBrowse W s cmd user).1 = some err) ∧
          queriedLimits (handlerBrowse W s cmd user).2.2 = []) ↔
        ∃ e, W.Atoi arg = .error e) ∧
      (∀ e, W.Atoi arg = .error e →
        handlerBrowse W s cmd user = (some (.plain ("invalid limit value: " ++ arg)), s, [])) ∧
      (∀ n, W.Atoi arg = .ok n →
        queriedLimits (handlerBrowse W s cmd user).2.2 = [int32 n] ∧
        (n - int32 n) % 2 ^ 32 = 0 ∧ -(2 ^ 31) ≤ int32 n ∧ int32 n < 2 ^ 31 ∧
        (2 ^ 31 - 1 < n → int32 n ≠ n) ∧
        (-(2 ^ 31) ≤ n → n ≤ 0 → int32 n = n))) ∧
    (∀ limit : Int,
      ((cmd.args.length ≠ 1 ∧ limit = 2) ∨
        ∃ arg n, cmd.args = [arg] ∧ W.Atoi arg = .ok n ∧ limit = int32 n) →
      (∀ err s1, W.GetPostsForUser { UserID := user.ID, Limit := limit } s
          = (.error err, s1) →
        handlerBrowse W s cmd user
          = (some (errorfW "error retrieving posts for user: " err), s1,
              [Event.GetPostsForUser { UserID := user.ID, Limit := limit } false])) ∧
      (∀ posts s1, W.GetPostsForUser { UserID := user.ID, Limit := limit } s
          = (.ok posts, s1) →
        handlerBrowse W s cmd user
          = (none, s1, Event.GetPostsForUser { UserID := user.ID, Limit := limit } true
              :: (if posts.length = 0 then [Event.Printf "No posts found\n"]
                  else printPosts W posts)))) := by
  refine ⟨?_, ?_, ?_⟩
  · intro hlen
    have h : browseLimit W cmd = .ok 2 := by simp [browseLimit, hlen]
    have := handlerBrowse_query W s cmd user 2 h
    simpa [int32] using this
  · intro arg hargs
    refine ⟨?_, ?_, ?_⟩
    · rcases ha : W.Atoi arg with e | n
      · have h : browseLimit W cmd = .error (.plain ("invalid limit value: " ++ arg)) := by
          simp [browseLimit, hargs, ha]
        simp [handlerBrowse, h, queriedLimits]
      · have h : browseLimit W cmd = .ok n := by simp [browseLimit, hargs, ha]
        have := handlerBrowse_query W s cmd user n h
        simp [this]
    · intro e ha
      have h : browseLimit W cmd = .error (.plain ("invalid limit value: " ++ arg)) := by
        simp [browseLimit, hargs, ha]
      simp [handlerBrowse, h]
    · intro n ha
      have h : browseLimit W cmd = .ok n := by simp [browseLimit, hargs, ha]
      refine ⟨handlerBrowse_query W s cmd user n h, ?_, ?_, ?_, ?_, ?_⟩
      · simp only [int32]; omega
      · simp only [int32]; omega
      · simp only [int32]; omega
      · intro hbig; simp only [int32]; omega
      · intro h1 h2; simp only [int32]; omega
  · intro limit hlim
    rcases hlim with ⟨hlen, rfl⟩ | ⟨arg, n, hargs, ha, rfl⟩
    · have h : browseLimit W cmd = .ok 2 := by simp [browseLimit, hlen]
      have h2 : int32 2 = 2 := by decide
      have := handlerBrowse_run W s cmd user 2 h
      rw [h2] at this
      exact this
    · have h : browseLimit W cmd = .ok n := by simp [browseLimit, hargs, ha]
      exact handlerBrowse_run W s cmd user n h

/-- Witness for C10: no argument and two arguments query with limit 2; "x" is
rejected without a query; "2147483648" reaches the store as -2147483648;
"0" and "-3" reach it unchanged; "1" returns the one stored post, which is
printed. -/
theorem handlerBrowse_limit_witness :
    queriedLimits (handlerBrowse sampleWorld seenStore { name := "browse", args := [] }
      { ID := 1, Name := "ann" }).2.2 = [2] ∧
    queriedLimits (handlerBrowse sampleWorld seenStore
      { name := "browse", args := ["5", "6"] } { ID := 1, Name := "ann" }).2.2 = [2] ∧
    handlerBrowse sampleWorld seenStore { name := "browse", args := ["x"] }
        { ID := 1, Name := "ann" }
      = (some (.plain "invalid limit value: x"), seenStore, []) ∧
    Atoi "2147483648" = .ok 2147483648 ∧
    queriedLimits (handlerBrowse sampleWorld seenStore
      { name := "browse", args := ["2147483648"] } { ID := 1, Name := "ann" }).2.2
        = [-2147483648] ∧
    queriedLimits (handlerBrowse sampleWorld seenStore { name := "browse", args := ["0"] }
      { ID := 1, Name := "ann" }).2.2 = [0] ∧
    queriedLimits (handlerBrowse sampleWorld seenStore { name := "browse", args := ["-3"] }
      { ID := 1, Name := "ann" }).2.2 = [-3] ∧
    handlerBrowse sampleWorld seenStore { name := "browse", args := ["1"] }
        { ID := 1, Name := "ann" }
      = (none, seenStore,
          Event.GetPostsForUser { UserID := 1, Limit := 1 } true
            :: (if seenStore.posts.length = 0 then [Event.Printf "No posts found\n"]
                else printPosts sampleWorld seenStore.posts)) :=
  ⟨(handlerBrowse_limit sampleWorld seenStore { name := "browse", args := [] }
      { ID := 1, Name := "ann" }).1 (by decide),
    (handlerBrowse_limit sampleWorld seenStore { name := "browse", args := ["5", "6"] }
      { ID := 1, Name := "ann" }).1 (by decide),
    ((handlerBrowse_limit sampleWorld seenStore { name := "browse", args := ["x"] }
      { ID := 1, Name := "ann" }).2.1 "x" rfl).2.1
        (.plain "strconv.Atoi: parsing x: invalid syntax") (by decide),
    by decide,
    (((handlerBrowse_limit sampleWorld seenStore { name := "browse", args := ["2147483648"] }
      { ID := 1, Name := "ann" }).2.1 "2147483648" rfl).2.2 2147483648 (by decide)).1,
    by decide, by decide,
    ((handlerBrowse_limit sampleWorld seenStore { name := "browse", args := ["1"] }
      { ID := 1, Name := "ann" }).2.2 1
        (Or.inr ⟨"1", 1, rfl, by decide, by decide⟩)).2 seenStore.posts seenStore
        (by decide)⟩

end AgGrOgator
